import Mathlib

/-!
# Kedo: the macro bar chart and the recommendation-set handlers

A shallow embedding of `src/components/BarChart.js`, of the meal handlers of
`src/screens/HomeScreen.js`, of the list fields `save` submits in
`src/screens/ProfileScreen.js` and of `updateQty` in
`src/screens/PantryScreen.js`, with the properties of the written
specification stated over it.

A JavaScript number that is finite is the rational it denotes.  The product,
sum or quotient of two numbers is the exact result rounded to binary64
(`round64`), as long as that is a finite number.  A value that JavaScript
coerces to `0` through `x || 0` and `+x || 0` without being a number
(`undefined`, `null`, `NaN`) is `none`.
-/

set_option autoImplicit false

namespace Kedo

/-! ## BarChart.js -/

/-- One element of the `values` prop, `{label, value}`.  A missing label is
`none` (the source reads it as `''`), a missing or `NaN` value is `none`. -/
structure Entry where
  label : Option String
  value : Option ℚ
  deriving DecidableEq, Repr

/-- The props of `BarChart` that take part in the computation: `values`
(default `[]`), the optional `max` and the optional `calories`. -/
structure Props where
  values : List Entry := []
  max : Option ℚ := none
  calories : Option ℚ := none

/-- `x || 0` on a number that may be missing: `0` when `x` is falsy
(missing, `NaN` or `0`), `x` otherwise. -/
def orZero : Option ℚ → ℚ
  | some q => if q = 0 then 0 else q
  | none => 0

/-- `Math.max(a, ...xs)`. -/
def mathMax (a : ℚ) (xs : List ℚ) : ℚ :=
  xs.foldl max a

/-- `Math.round(x)`: the nearest integer, a tie going up. -/
def mathRound (x : ℚ) : ℤ :=
  ⌊x + 1 / 2⌋

/-- The integer nearest to `x`, the even one of the two when `x` is halfway. -/
def roundTiesEven (x : ℚ) : ℤ :=
  if x - ⌊x⌋ < 1 / 2 then ⌊x⌋
  else if 1 / 2 < x - ⌊x⌋ then ⌊x⌋ + 1
  else if ⌊x⌋ % 2 = 0 then ⌊x⌋ else ⌊x⌋ + 1

/-- The spacing of the binary64 numbers around `x`: `2 ^ (e - 52)` for
`2 ^ e ≤ |x| < 2 ^ (e + 1)`, and `2 ^ (-1074)` below the normal range. -/
def ulp64 (x : ℚ) : ℚ :=
  (2 : ℚ) ^ (max (Int.log 2 |x|) (-1022) - 52)

/-- The binary64 number nearest to `x`, ties to the even significand: what a
JavaScript `*`, `+` or `/` stores for the exact result `x`.  From `2 ^ 1024`
on the stored value is an infinity, which is not a number of this model;
the value given here is then the rounding with an unbounded exponent. -/
def round64 (x : ℚ) : ℚ :=
  (roundTiesEven (x / ulp64 x) : ℚ) * ulp64 x

/-- `(s || '').toString().toLowerCase()`, as the characters of the result.
The letters `A`-`Z` are lowered, which is all that a match with the lower-case
ASCII keys of the source depends on. -/
def lower (s : Option String) : List Char :=
  ((s.getD "").toList).map Char.toLower

/-- `hay.includes(key)`: `key` occurs in `hay` as a contiguous run. -/
def includes (hay key : List Char) : Bool :=
  hay.tails.any (fun t => key.isPrefixOf t)

/-- `const maxVal = max || Math.max(1, ...values.map(v => +v.value || 0))`. -/
def maxVal (values : List Entry) (max : Option ℚ) : ℚ :=
  match max with
  | some m => if m = 0 then mathMax 1 (values.map (fun v => orZero v.value)) else m
  | none => mathMax 1 (values.map (fun v => orZero v.value))

/-- `const get = (key) => (values.find(v => lower(v.label).includes(key))?.value) || 0`. -/
def get (values : List Entry) (key : String) : ℚ :=
  match values.find? (fun v => includes (lower v.label) key.toList) with
  | some v => orZero v.value
  | none => 0

/-- The body of `if (kcal == null) { ... }`: with `p = +get('protein') || 0`,
`c = +get('carb') || 0` and `f = +get('fat') || 0`, the value
`Math.max(0, Math.round(p * 4 + c * 4 + f * 9))`, each product and each sum
rounded to binary64. -/
def derivedKcal (values : List Entry) : ℤ :=
  let p := orZero (some (get values "protein"))
  let c := orZero (some (get values "carb"))
  let f := orZero (some (get values "fat"))
  max 0 (mathRound (round64 (round64 (round64 (p * 4) + round64 (c * 4)) + round64 (f * 9))))

/-- The `kcal` the chart shows, `let kcal = calories; if (kcal == null) { ... }`:
the `calories` prop when it is given, the derived value otherwise. -/
def kcal (props : Props) : ℚ :=
  match props.calories with
  | some k => k
  | none => (derivedKcal props.values : ℚ)

/-- `const pct = Math.min(1, (v.value || 0) / maxVal)` for the entry `v`, the
quotient rounded to binary64. -/
def pct (props : Props) (v : Entry) : ℚ :=
  min 1 (round64 (orZero v.value / maxVal props.values props.max))

/-! ### The written specification of the chart, in its own words -/

/-- The label of `v`, compared case-insensitively, contains `key` as a
substring. -/
def labelContains (v : Entry) (key : String) : Prop :=
  key.toList <:+: (((v.label.getD "").toList).map Char.toLower)

/-- The number `q` is the value of the first entry of `values` whose label
contains `key`, and `0` when no entry matches.  A missing value counts as `0`;
for an entry with a numeric value `q` is that value. -/
def IsFirstMatchValue (values : List Entry) (key : String) (q : ℚ) : Prop :=
  (∃ pre v post, values = pre ++ v :: post ∧ (∀ u ∈ pre, ¬ labelContains u key) ∧
      labelContains v key ∧ q = v.value.getD 0) ∨
  ((∀ u ∈ values, ¬ labelContains u key) ∧ q = 0)

/-- The list with every missing value replaced by `0`. -/
def zeroMissing (values : List Entry) : List Entry :=
  values.map (fun v => { v with value := some (v.value.getD 0) })

/-- The list with every negative or missing value replaced by `0`. -/
def zeroNegativeOrMissing (values : List Entry) : List Entry :=
  values.map (fun v => { v with value := some (max 0 (v.value.getD 0)) })

/-! ## JavaScript values -/

/-- The values that flow through `HomeScreen.js`: what a JSON body can hold,
and `undefined` for an absent property or array slot. -/
inductive JSVal where
  | undefined
  | null
  | bool (b : Bool)
  | num (q : ℚ)
  | str (s : String)
  | arr (xs : List JSVal)
  | obj (fields : List (String × JSVal))

namespace JSVal

/-- JavaScript truthiness: `undefined`, `null`, `false`, `0` and `''` are
falsy, every array and every object is truthy. -/
def truthy : JSVal → Bool
  | undefined => false
  | null => false
  | bool b => b
  | num q => decide (q ≠ 0)
  | str s => decide (s ≠ "")
  | arr _ => true
  | obj _ => true

/-- `a || b`. -/
def or (a b : JSVal) : JSVal :=
  if a.truthy then a else b

/-- `Array.isArray(v)`. -/
def isArray : JSVal → Bool
  | arr _ => true
  | _ => false

/-- `typeof v === 'object'`: objects, arrays and `null`. -/
def typeofObject : JSVal → Bool
  | null => true
  | arr _ => true
  | obj _ => true
  | _ => false

/-- `v === s` for a string literal `s`. -/
def strictEqStr : JSVal → String → Bool
  | str t, s => t == s
  | _, _ => false

/-- The value stored under `k` in a property list, `undefined` when absent. -/
def lookup (fields : List (String × JSVal)) (k : String) : JSVal :=
  match fields.find? (fun kv => kv.1 == k) with
  | some kv => kv.2
  | none => undefined

/-- `o[k] = v` on a property list: an existing key keeps its place and takes
the new value, a new key goes to the end. -/
def setField : List (String × JSVal) → String → JSVal → List (String × JSVal)
  | [], k, v => [(k, v)]
  | (k0, v0) :: rest, k, v =>
    if k0 == k then (k0, v) :: rest else (k0, v0) :: setField rest k v

/-- `v.k` for one of the data keys the screen reads (`state`, `error`,
`meals`, `meal`, `dish_name`, `_slot`, ...), on a value that is not
`undefined` or `null`: the stored property of an object, `undefined` on
anything else. -/
def prop : JSVal → String → JSVal
  | obj fields, k => lookup fields k
  | _, _ => undefined

/-- `v.k` with the `TypeError` of reading a property of `undefined` or
`null`. -/
def propE : JSVal → String → Except String JSVal
  | undefined, _ => .error "TypeError"
  | null, _ => .error "TypeError"
  | v, k => .ok (prop v k)

/-- `xs[i]` on an array: `undefined` past the end. -/
def index (xs : List JSVal) (i : Nat) : JSVal :=
  xs.getD i undefined

/-- The pairs `("0", x0), ("1", x1), ...` counted from `start`. -/
def indexed (start : Nat) : List JSVal → List (String × JSVal)
  | [] => []
  | x :: xs => (toString start, x) :: indexed (start + 1) xs

/-- The own enumerable properties copied by `{...v}`: those of an object,
the indexed elements of an array or of a string, none for any other value.
A string is spread character by character.  JavaScript spreads it by UTF-16
unit, which is the same for characters of the basic plane; the two halves
of a character outside it are not strings of this model.  No handler stores
a string in the meal list. -/
def spread : JSVal → List (String × JSVal)
  | obj fields => fields
  | arr xs => indexed 0 xs
  | str s => indexed 0 (s.toList.map (fun c => str c.toString))
  | _ => []

/-- `copy[i] = v` on an array: in range it replaces the element, past the end
the array grows and the slots in between read `undefined`. -/
def setIndex (xs : List JSVal) (i : Nat) (v : JSVal) : List JSVal :=
  if i < xs.length then xs.set i v
  else xs ++ List.replicate (i - xs.length) undefined ++ [v]

end JSVal

open JSVal

/-- `arr.map((m, i) => f(i, m))` for a callback that may throw, the index
counted from `start`. -/
def mapIdxE {α β : Type} (f : Nat → α → Except String β) (start : Nat) :
    List α → Except String (List β)
  | [] => .ok []
  | x :: xs =>
    match f start x with
    | .error e => .error e
    | .ok y =>
      match mapIdxE f (start + 1) xs with
      | .error e => .error e
      | .ok ys => .ok (y :: ys)

/-! ## HomeScreen.js -/

/-- An ingredient record `{ item, quantity }`. -/
def ingredient (item quantity : String) : JSVal :=
  obj [("item", str item), ("quantity", str quantity)]

/-- A macro record `{ protein, carbs, fat }`. -/
def macrosOf (protein carbs fat : ℚ) : JSVal :=
  obj [("protein", num protein), ("carbs", num carbs), ("fat", num fat)]

/-- `const DUMMY_MEALS = [...]`, the static meals of the source. -/
def DUMMY_MEALS : List JSVal :=
  [ obj
      [ ("dish_name", str "Grilled Chicken Bowl"),
        ("image", str "https://img.taste.com.au/TrsuLfz7/taste/2017/07/grilled-chicken-and-veg-barley-bowl-126589-1.jpg"),
        ("macros", macrosOf 42 48 12),
        ("ingredients", arr
          [ ingredient "Chicken Breast" "200 g",
            ingredient "Brown Rice" "1 cup cooked",
            ingredient "Avocado" "1/4",
            ingredient "Mixed Greens" "1 cup" ]),
        ("recipe_steps", arr
          [ str "Season chicken with salt, pepper, garlic.",
            str "Grill 5–6 min per side until cooked.",
            str "Layer bowl with rice, greens, sliced chicken, avocado.",
            str "Drizzle lemon and olive oil to finish." ]),
        ("video_link", null) ],
    obj
      [ ("dish_name", str "Veggie Paneer Wrap"),
        ("image", str "https://www.playfulcooking.com/wp-content/uploads/2011/03/paneer_roll_5.jpg"),
        ("macros", macrosOf 28 55 14),
        ("ingredients", arr
          [ ingredient "Whole Wheat Tortilla" "1 large",
            ingredient "Paneer" "120 g",
            ingredient "Bell Peppers" "1/2 cup sliced",
            ingredient "Greek Yogurt" "2 tbsp" ]),
        ("recipe_steps", arr
          [ str "Sauté paneer and peppers until lightly charred.",
            str "Spread yogurt on tortilla, add filling.",
            str "Roll tightly and toast 1–2 min per side." ]),
        ("video_link", null) ],
    obj
      [ ("dish_name", str "Salmon with Quinoa and Greens"),
        ("image", str "https://images.unsplash.com/photo-1512621776951-a57141f2eefd?q=80&w=1200&auto=format&fit=crop"),
        ("macros", macrosOf 34 38 16),
        ("ingredients", arr
          [ ingredient "Salmon Fillet" "180 g",
            ingredient "Quinoa" "3/4 cup cooked",
            ingredient "Spinach" "1 cup",
            ingredient "Olive Oil" "1 tsp" ]),
        ("recipe_steps", arr
          [ str "Pan-sear salmon 3–4 min each side.",
            str "Steam or sauté spinach until wilted.",
            str "Serve salmon over quinoa with greens." ]),
        ("video_link", null) ] ]

/-- `const SLOTS = ['Breakfast','Lunch','Dinner']`. -/
def SLOTS : List String := ["Breakfast", "Lunch", "Dinner"]

/-- `SLOTS[i]`: the label, `undefined` past the end. -/
def slotAt (i : Nat) : JSVal :=
  match SLOTS.get? i with
  | some s => str s
  | none => undefined

/-- The callback `(m, i) => ({ ...m, _slot: SLOTS[i] || 'Meal' })`. -/
def withDummySlot (i : Nat) (m : JSVal) : JSVal :=
  obj (setField (spread m) "_slot" ((slotAt i).or (str "Meal")))

/-- `xs.map((m, i) => f(i, m))`, the index counted from `start`. -/
def mapIdxFrom {α β : Type} (f : Nat → α → β) (start : Nat) : List α → List β
  | [] => []
  | x :: xs => f start x :: mapIdxFrom f (start + 1) xs

/-- `DUMMY_MEALS.map((m, i) => ({ ...m, _slot: SLOTS[i] || 'Meal' }))`. -/
def dummyWithSlots : List JSVal :=
  mapIdxFrom withDummySlot 0 DUMMY_MEALS

/-- The callback `(m, i) => ({ ...m, _slot: SLOTS[i] || m._slot || 'Meal' })`;
`m._slot` is read, and throws on `undefined` or `null`, only when `SLOTS[i]`
is falsy. -/
def withFetchedSlot (i : Nat) (m : JSVal) : Except String JSVal :=
  if (slotAt i).truthy then .ok (obj (setField (spread m) "_slot" (slotAt i)))
  else
    match propE m "_slot" with
    | .error e => .error e
    | .ok s => .ok (obj (setField (spread m) "_slot" (s.or (str "Meal"))))

/-- What the screen does that can be observed from outside of one handler:
the requests it sends and the calls of `setClarModal`. -/
inductive Event where
  | get (path : String) (params : JSVal)
  | post (path : String) (body : JSVal)
  | setClarModal (visible : Bool)

/-- Whether the event is a request to the server. -/
def Event.isRequest : Event → Bool
  | .get _ _ => true
  | .post _ _ => true
  | .setClarModal _ => false

/-- The `useState` cells of `HomeScreen` the meal handlers read and write.
`meals` is `none` for a falsy list (the handlers guard it with `!old`);
`totals` starts as `{ protein: 0, carbs: 0, fat: 0 }`. -/
structure HomeState where
  meals : Option (List JSVal)
  clarModal : Bool
  mealTimes : JSVal
  totals : JSVal := obj [("protein", num 0), ("carbs", num 0), ("fat", num 0)]

/-- The initial cells: the static meals with their slots, the modal closed and
the default meal times. -/
def HomeState.initial : HomeState where
  meals := some dummyWithSlots
  clarModal := false
  mealTimes := obj [("breakfast", str "08:00"), ("lunch", str "13:00"), ("dinner", str "20:00")]

/-- The outcome of one run of a handler with no other handler interleaved:
the cells after it, the events in the order they happened, and whether the
promise of the handler was rejected (an exception left it). -/
structure Run where
  state : HomeState
  log : List Event
  rejected : Bool

/-- `Array.isArray(r.meals) && r.meals.length ? r.meals : DUMMY_MEALS`, as
the list of elements. -/
def mealsOrDummy (meals : JSVal) : List JSVal :=
  match meals with
  | .arr xs => if xs.length ≠ 0 then xs else DUMMY_MEALS
  | _ => DUMMY_MEALS

/-- The body of the `try` of `fetchMeals` after the response `r` arrived:
the cells it sets and the events it adds, or the exception that leaves it.
No cell is written before a statement that can throw. -/
def fetchMealsTry (r : JSVal) (st : HomeState) : Except String (HomeState × List Event) :=
  match propE r "state" with
  | .error e => .error e
  | .ok state =>
    if state.strictEqStr "NEED_CLARIFICATION" then
      .ok ({ st with clarModal := true, meals := some dummyWithSlots }, [Event.setClarModal true])
    else
      match propE r "error" with
      | .error e => .error e
      | .ok err =>
        if err.truthy then .ok ({ st with meals := some dummyWithSlots }, [])
        else
          match propE r "meals" with
          | .error e => .error e
          | .ok meals =>
            match mapIdxE withFetchedSlot 0 (mealsOrDummy meals) with
            | .error e => .error e
            | .ok labelled => .ok ({ st with meals := some labelled }, [])

/-- Function `fetchMeals()`: `resp` is what `await get('/meals/recommendations')`
gives, the thrown error or the response data. -/
def fetchMeals (resp : Except String JSVal) (st : HomeState) : Run :=
  let req := Event.get "/meals/recommendations" undefined
  match resp with
  | .error _ => { state := { st with meals := some dummyWithSlots }, log := [req], rejected := false }
  | .ok r =>
    match fetchMealsTry r st with
    | .error _ => { state := { st with meals := some dummyWithSlots }, log := [req], rejected := false }
    | .ok (st1, evs) => { state := st1, log := req :: evs, rejected := false }

/-- Function `resolveClar()`: `postResp` is the outcome of the awaited `post`,
`fetchResp` that of the request sent by the `fetchMeals()` it then calls. -/
def resolveClar (postResp fetchResp : Except String JSVal) (st : HomeState) : Run :=
  let req := Event.post "/clarifications/resolve" (obj [("meal_times", st.mealTimes)])
  match postResp with
  | .error _ => { state := st, log := [req], rejected := true }
  | .ok _ =>
    let run := fetchMeals fetchResp { st with clarModal := false }
    { state := run.state, log := req :: Event.setClarModal false :: run.log, rejected := false }

/-- `o.k = v` on an element of the meal list.  The elements the handlers
store are objects (or `undefined` for a slot past the end); on any other
value the assignment leaves the element as it is. -/
def assignField (o : JSVal) (k : String) (v : JSVal) : JSVal :=
  match o with
  | .obj fields => obj (setField fields k v)
  | other => other

/-- The first updater of `suggestAnother`:
`old => { if (!old) return old; const copy = [...old];
copy[idx] = { ...(copy[idx]||{}), _loading: true }; return copy; }`. -/
def markLoading (idx : Nat) : Option (List JSVal) → Option (List JSVal)
  | none => none
  | some old =>
    some (setIndex old idx
      (obj (setField (spread ((index old idx).or (obj []))) "_loading" (bool true))))

/-- The updater of the two failure exits of `suggestAnother`:
`old => { if (!old) return old; const copy = [...old];
if (copy[idx]) copy[idx]._loading = false; return copy; }`. -/
def clearLoading (idx : Nat) : Option (List JSVal) → Option (List JSVal)
  | none => none
  | some old =>
    if (index old idx).truthy then
      some (setIndex old idx (assignField (index old idx) "_loading" (bool false)))
    else some old

/-- The updater of the success exit of `suggestAnother`:
`old => { if (!old) return old; const copy = [...old]; copy[idx] = one; return copy; }`. -/
def replaceAt (idx : Nat) (meal : JSVal) : Option (List JSVal) → Option (List JSVal)
  | none => none
  | some old => some (setIndex old idx meal)

/-- `Array.isArray(v) ? v : []`. -/
def arrayOrEmpty (v : JSVal) : JSVal :=
  if v.isArray then v else arr []

/-- `Array.isArray(r.meal) ? r.meal[0] : r.meal`. -/
def firstOrSelf (meal : JSVal) : JSVal :=
  match meal with
  | .arr xs => index xs 0
  | m => m

/-- The object `one` built by `suggestAnother` from the raw meal. -/
def one (idx : Nat) (oneRaw : JSVal) : JSVal :=
  obj
    [ ("dish_name", (prop oneRaw "dish_name").or (str "Meal")),
      ("image", (prop oneRaw "image").or null),
      ("macros", (prop oneRaw "macros").or (macrosOf 0 0 0)),
      ("ingredients", arrayOrEmpty (prop oneRaw "ingredients")),
      ("recipe_steps", arrayOrEmpty (prop oneRaw "recipe_steps")),
      ("video_link", (prop oneRaw "video_link").or null),
      ("_slot", ((slotAt idx).or (prop oneRaw "_slot")).or (str "Meal")),
      ("_loading", bool false) ]

/-- Function `suggestAnother(slot, idx)`: `resp` is what
`await get('/meals/suggest_another', { slot })` gives.  The function has no
`try`: a thrown error leaves it after the first updater only. -/
def suggestAnother (slot : String) (idx : Nat) (resp : Except String JSVal)
    (st : HomeState) : Run :=
  let st1 : HomeState := { st with meals := markLoading idx st.meals }
  let req := Event.get "/meals/suggest_another" (obj [("slot", str slot)])
  match resp with
  | .error _ => { state := st1, log := [req], rejected := true }
  | .ok r =>
    if !r.truthy || (prop r "error").truthy then
      { state := { st1 with meals := clearLoading idx st1.meals }, log := [req], rejected := false }
    else
      let oneRaw := firstOrSelf (prop r "meal")
      if !oneRaw.truthy || !oneRaw.typeofObject then
        { state := { st1 with meals := clearLoading idx st1.meals }, log := [req], rejected := false }
      else
        { state := { st1 with meals := replaceAt idx (one idx oneRaw) st1.meals },
          log := [req], rejected := false }

/-- The placeholder card of `recommendSnack`. -/
def snackPlaceholder : JSVal :=
  obj
    [ ("dish_name", str "Thinking…"),
      ("_slot", str "Snack"),
      ("_loading", bool true),
      ("macros", macrosOf 0 0 0),
      ("ingredients", arr []),
      ("recipe_steps", arr []) ]

/-- The first updater of `recommendSnack`:
`old => (old ? [...old, placeholder] : [placeholder])`. -/
def appendPlaceholder : Option (List JSVal) → Option (List JSVal)
  | none => some [snackPlaceholder]
  | some old => some (old ++ [snackPlaceholder])

/-- `xs.filter((m, i) => p(i, m))`, the index counted from `start`. -/
def filterIdxFrom {α : Type} (p : Nat → α → Bool) (start : Nat) : List α → List α
  | [] => []
  | x :: xs => if p start x then x :: filterIdxFrom p (start + 1) xs
               else filterIdxFrom p (start + 1) xs

/-- The updater of the two failure exits of `recommendSnack`:
`old => (old ? old.filter((m, i) => i !== old.length - 1) : old)`. -/
def removeLast : Option (List JSVal) → Option (List JSVal)
  | none => none
  | some old =>
    some (filterIdxFrom (fun i _ => decide ((i : ℤ) ≠ (old.length : ℤ) - 1)) 0 old)

/-- The updater of the success exit of `recommendSnack`:
`old => { if (!old) return [withSlot]; const copy = [...old];
copy[copy.length - 1] = withSlot; return copy; }`.  On an empty array the
index is `-1`, which is no element: the array stays empty. -/
def replaceLast (meal : JSVal) : Option (List JSVal) → Option (List JSVal)
  | none => some [meal]
  | some old => if old.length = 0 then some old else some (setIndex old (old.length - 1) meal)

/-- The object `withSlot` built by `recommendSnack` from the raw snack. -/
def withSlot (snackRaw : JSVal) : JSVal :=
  obj
    [ ("dish_name", (prop snackRaw "dish_name").or (str "Snack")),
      ("image", (prop snackRaw "image").or null),
      ("macros", (prop snackRaw "macros").or (macrosOf 0 0 0)),
      ("ingredients", arrayOrEmpty (prop snackRaw "ingredients")),
      ("recipe_steps", arrayOrEmpty (prop snackRaw "recipe_steps")),
      ("video_link", (prop snackRaw "video_link").or null),
      ("_slot", str "Snack"),
      ("_loading", bool false) ]

/-- Function `recommendSnack()`: `resp` is what
`await get('/meals/recommend_snack', { max_calories: 300 })` gives.  The
function has no `try`: a thrown error leaves it after the first updater only. -/
def recommendSnack (resp : Except String JSVal) (st : HomeState) : Run :=
  let st1 : HomeState := { st with meals := appendPlaceholder st.meals }
  let req := Event.get "/meals/recommend_snack" (obj [("max_calories", num 300)])
  match resp with
  | .error _ => { state := st1, log := [req], rejected := true }
  | .ok r =>
    if !r.truthy || (prop r "error").truthy then
      { state := { st1 with meals := removeLast st1.meals }, log := [req], rejected := false }
    else
      let snackRaw := firstOrSelf (prop r "meal")
      if !snackRaw.truthy || !snackRaw.typeofObject then
        { state := { st1 with meals := removeLast st1.meals }, log := [req], rejected := false }
      else
        { state := { st1 with meals := replaceLast (withSlot snackRaw) st1.meals },
          log := [req], rejected := false }

/-- The `_loading` flag of a meal as the card reads it, `!!m._loading`. -/
def isLoading (m : JSVal) : Bool :=
  (prop m "_loading").truthy

/-- The updater `recommendSnack` applies once the response `r` has arrived:
the removal of the last entry on the two failure exits, the replacement of
the last entry by `withSlot` on the success exit. -/
def snackUpdater (r : JSVal) : Option (List JSVal) → Option (List JSVal) :=
  if !r.truthy || (prop r "error").truthy then removeLast
  else if !(firstOrSelf (prop r "meal")).truthy || !(firstOrSelf (prop r "meal")).typeofObject then
    removeLast
  else replaceLast (withSlot (firstOrSelf (prop r "meal")))

/-- `a + b`.  On two numbers it is their sum rounded to binary64, when that is
a finite number.  With an operand that is not a number JavaScript
concatenates strings or gives `NaN`, and a sum of two numbers from `2 ^ 1024`
on is an infinity; those results are not computed here but left to `other`,
about which nothing is assumed. -/
def plus (other : JSVal → JSVal → JSVal) : JSVal → JSVal → JSVal
  | .num a, .num b =>
    if |round64 (a + b)| < 2 ^ 1024 then num (round64 (a + b)) else other (num a) (num b)
  | a, b => other a b

/-- `m.macros?.k || 0` for the object `m` given by its properties. -/
def macroOr0 (m : List (String × JSVal)) (k : String) : JSVal :=
  (prop (lookup m "macros") k).or (num 0)

/-- The updater of `onEaten(m)`:
`t => ({ protein: t.protein + (m.macros?.protein || 0),
carbs: t.carbs + (m.macros?.carbs || 0), fat: t.fat + (m.macros?.fat || 0) })`.
The cell `t` is never `undefined` or `null`. -/
def addMacros (other : JSVal → JSVal → JSVal) (m : List (String × JSVal)) (t : JSVal) : JSVal :=
  obj
    [ ("protein", plus other (prop t "protein") (macroOr0 m "protein")),
      ("carbs", plus other (prop t "carbs") (macroOr0 m "carbs")),
      ("fat", plus other (prop t "fat") (macroOr0 m "fat")) ]

/-- Function `onEaten(m)` for the object `m` given by its properties: `resp`
is what `await post('/meals/log_eaten', m)` gives.  The function has no
`try`; `r?.totals` is read only from a response that arrived. -/
def onEaten (other : JSVal → JSVal → JSVal) (m : List (String × JSVal))
    (resp : Except String JSVal) (st : HomeState) : Run :=
  let st1 : HomeState := { st with totals := addMacros other m st.totals }
  let req := Event.post "/meals/log_eaten" (obj m)
  match resp with
  | .error _ => { state := st1, log := [req], rejected := true }
  | .ok r =>
    if (prop r "totals").truthy then
      { state := { st1 with totals := prop r "totals" }, log := [req], rejected := false }
    else { state := st1, log := [req], rejected := false }

/-- Function `toggleEaten(idx)`.  The updater copies the list, builds
`curr = { ...(copy[idx] || {}) }`, stores `!curr._eaten` in it, puts it at
`idx`, and calls `onEaten(curr)` when the new flag is true; `resp` is the
outcome of the request of that call. -/
def toggleEaten (other : JSVal → JSVal → JSVal) (idx : Nat) (resp : Except String JSVal)
    (st : HomeState) : Run :=
  match st.meals with
  | none => { state := st, log := [], rejected := false }
  | some old =>
    let curr := setField (spread ((index old idx).or (obj []))) "_eaten"
      (bool (!(lookup (spread ((index old idx).or (obj []))) "_eaten").truthy))
    let st1 : HomeState := { st with meals := some (setIndex old idx (obj curr)) }
    if !(lookup (spread ((index old idx).or (obj []))) "_eaten").truthy then
      onEaten other curr resp st1
    else { state := st1, log := [], rejected := false }

/-- The `_eaten` flag of a meal as the checkbox reads it. -/
def isEaten (m : JSVal) : Bool :=
  (prop m "_eaten").truthy

/-- The macro `k` of the meal `m` weighs `q` grams: the field `m.macros.k` is
the number `q`, or the macros record or the field is absent and `q` is `0`. -/
def HasGrams (m : List (String × JSVal)) (k : String) (q : ℚ) : Prop :=
  prop (lookup m "macros") k = num q ∨ (prop (lookup m "macros") k = undefined ∧ q = 0)

/-- The slot label `fetchMeals` gives the meal object at index `i`,
`SLOTS[i] || m._slot || 'Meal'`, for the object `m` given by its properties. -/
def fetchedLabel (i : Nat) (m : List (String × JSVal)) : JSVal :=
  ((slotAt i).or (lookup m "_slot")).or (str "Meal")

/-! ## ProfileScreen.js -/

/-- The characters `String.prototype.trim` removes: the white space and the
line terminators of ECMAScript. -/
def isWhiteSpace (c : Char) : Bool :=
  c.toNat == 0x9 || c.toNat == 0xA || c.toNat == 0xB || c.toNat == 0xC || c.toNat == 0xD ||
  c.toNat == 0x20 || c.toNat == 0xA0 || c.toNat == 0x1680 ||
  (0x2000 ≤ c.toNat && c.toNat ≤ 0x200A) ||
  c.toNat == 0x2028 || c.toNat == 0x2029 || c.toNat == 0x202F || c.toNat == 0x205F ||
  c.toNat == 0x3000 || c.toNat == 0xFEFF

/-- `s.trim()` on the characters of `s`. -/
def trim (s : List Char) : List Char :=
  (s.dropWhile isWhiteSpace).rdropWhile isWhiteSpace

/-- `s.split(sep)` for a one-character separator, on the characters of `s`:
the pieces between the occurrences of `sep`, one piece for a string without
any. -/
def split (sep : Char) : List Char → List (List Char)
  | [] => [[]]
  | c :: cs =>
    if c = sep then [] :: split sep cs
    else (c :: (split sep cs).headD []) :: (split sep cs).tail

/-- The array `save` sends for `restrictions` and for `allergies`:
`text ? text.split(',').map(s => s.trim()).filter(Boolean) : []`. -/
def splitList (text : String) : List String :=
  if text = "" then []
  else (((split ',' text.toList).map trim).filter (fun s => !s.isEmpty)).map String.mk

/-- `pieces.join(sep)` on lists of characters; by it the written
specification says what the comma-separated segments of a text are. -/
def joinWith (sep : Char) : List (List Char) → List Char
  | [] => []
  | [x] => x
  | x :: y :: rest => x ++ sep :: joinWith sep (y :: rest)

/-! ## PantryScreen.js -/

/-- An element of `items`.  Every element is built as `{ name, quantity }`,
in `DUMMY_PANTRY` and in `analyzePantry`. -/
structure PantryItem where
  name : JSVal
  quantity : JSVal

/-- Function `updateQty(index, val)`, as the list it passes to `setItems`:
`const copy = [...items]; copy[index].quantity = val; setItems(copy)`.  Past
the end `copy[index]` is `undefined` and the assignment throws before
`setItems` is reached. -/
def updateQty (items : List PantryItem) (index : Nat) (val : String) :
    Except String (List PantryItem) :=
  match items.get? index with
  | none => .error "TypeError"
  | some item => .ok (items.set index { item with quantity := str val })

/-! ## Properties of the chart -/

theorem roundTiesEven_intCast (z : ℤ) : roundTiesEven (z : ℚ) = z := by
  unfold roundTiesEven
  simp

theorem roundTiesEven_nonneg (x : ℚ) (h : 0 ≤ x) : 0 ≤ roundTiesEven x := by
  have hf : 0 ≤ ⌊x⌋ := Int.floor_nonneg.mpr h
  unfold roundTiesEven
  split
  · exact hf
  · split
    · omega
    · split
      · exact hf
      · omega

theorem ulp64_pos (x : ℚ) : 0 < ulp64 x := by
  unfold ulp64
  positivity

theorem round64_nonneg (x : ℚ) (h : 0 ≤ x) : 0 ≤ round64 x := by
  unfold round64
  have h1 : 0 ≤ x / ulp64 x := div_nonneg h (le_of_lt (ulp64_pos x))
  have h2 := roundTiesEven_nonneg _ h1
  have h3 : (0 : ℚ) ≤ (roundTiesEven (x / ulp64 x) : ℚ) := by exact_mod_cast h2
  exact mul_nonneg h3 (le_of_lt (ulp64_pos x))

theorem log2_eq (x : ℚ) (e : ℤ) (hlo : (2 : ℚ) ^ e ≤ |x|) (hhi : |x| < (2 : ℚ) ^ (e + 1)) :
    Int.log 2 |x| = e := by
  have hpos : (0 : ℚ) < |x| := lt_of_lt_of_le (by positivity) hlo
  have h1 : e ≤ Int.log 2 |x| :=
    (Int.zpow_le_iff_le_log (by norm_num) hpos).mp (by exact_mod_cast hlo)
  have h2 : Int.log 2 |x| < e + 1 :=
    (Int.lt_zpow_iff_log_lt (by norm_num) hpos).mp (by exact_mod_cast hhi)
  omega

theorem ulp64_eq (x : ℚ) (e : ℤ) (he : -1022 ≤ e) (hlo : (2 : ℚ) ^ e ≤ |x|)
    (hhi : |x| < (2 : ℚ) ^ (e + 1)) : ulp64 x = (2 : ℚ) ^ (e - 52) := by
  unfold ulp64
  rw [log2_eq x e hlo hhi, max_eq_left he]

theorem round64_zero : round64 0 = 0 := by
  unfold round64
  simp [roundTiesEven]

theorem round64_intCast (n : ℤ) (h : |n| < 2 ^ 53) : round64 (n : ℚ) = n := by
  by_cases hn : n = 0
  · subst hn
    simpa using round64_zero
  · have habs : (1 : ℚ) ≤ |(n : ℚ)| := by
      have : (1 : ℤ) ≤ |n| := Int.one_le_abs hn
      exact_mod_cast this
    have hpos : (0 : ℚ) < |(n : ℚ)| := lt_of_lt_of_le one_pos habs
    have hlt : |(n : ℚ)| < (2 : ℚ) ^ (53 : ℤ) := by
      have h2 : ((|n| : ℤ) : ℚ) < ((2 ^ 53 : ℤ) : ℚ) := by exact_mod_cast h
      rw [Int.cast_abs] at h2
      rw [zpow_ofNat]
      exact_mod_cast h2
    have h0 : (0 : ℤ) ≤ Int.log 2 |(n : ℚ)| :=
      (Int.zpow_le_iff_le_log (by norm_num) hpos).mp (by simpa using habs)
    have h53 : Int.log 2 |(n : ℚ)| < 53 :=
      (Int.lt_zpow_iff_log_lt (by norm_num) hpos).mp (by exact_mod_cast hlt)
    obtain ⟨k, hk⟩ : ∃ k : ℕ, Int.log 2 |(n : ℚ)| - 52 = -(k : ℤ) :=
      ⟨(52 - Int.log 2 |(n : ℚ)|).toNat, by omega⟩
    have hu : ulp64 (n : ℚ) = ((2 : ℚ) ^ k)⁻¹ := by
      unfold ulp64
      rw [max_eq_left (by omega), hk, zpow_neg, zpow_natCast]
    have hdiv : (n : ℚ) / ulp64 (n : ℚ) = ((n * 2 ^ k : ℤ) : ℚ) := by
      rw [hu]
      push_cast
      field_simp
    unfold round64
    rw [hdiv, roundTiesEven_intCast, hu]
    push_cast
    field_simp

theorem orZero_eq_getD (x : Option ℚ) : orZero x = x.getD 0 := by
  cases x with
  | none => rfl
  | some q =>
    by_cases h : q = 0
    · simp [orZero, h]
    · simp [orZero, h]

theorem includes_iff_contiguous (hay key : List Char) :
    includes hay key = true ↔ key <:+: hay := by
  unfold includes
  rw [List.any_eq_true, List.infix_iff_prefix_suffix]
  constructor
  · rintro ⟨t, ht, hp⟩
    exact ⟨t, List.isPrefixOf_iff_prefix.mp hp, (List.mem_tails _ _).mp ht⟩
  · rintro ⟨t, hp, ht⟩
    exact ⟨t, (List.mem_tails _ _).mpr ht, List.isPrefixOf_iff_prefix.mpr hp⟩

theorem includes_lower_iff (v : Entry) (key : String) :
    includes (lower v.label) key.toList = true ↔ labelContains v key := by
  rw [includes_iff_contiguous]
  rfl

theorem getElem?_append_cons_length {α : Type} (pre post : List α) (v : α) :
    (pre ++ v :: post)[pre.length]? = some v := by
  rw [List.getElem?_append_right (Nat.le_refl _)]
  simp

theorem get_isFirstMatchValue (values : List Entry) (key : String) :
    IsFirstMatchValue values key (get values key) := by
  unfold get
  cases hfind : values.find? (fun v => includes (lower v.label) key.toList) with
  | none =>
    right
    refine ⟨?_, rfl⟩
    intro u hu hc
    have := List.find?_eq_none.mp hfind u hu
    exact this ((includes_lower_iff u key).mpr hc)
  | some v =>
    left
    obtain ⟨hv, pre, post, hsplit, hpre⟩ := List.find?_eq_some.mp hfind
    refine ⟨pre, v, post, hsplit, ?_, (includes_lower_iff v key).mp hv, orZero_eq_getD _⟩
    intro u hu hc
    have h1 := hpre u hu
    have h2 := (includes_lower_iff u key).mpr hc
    rw [h2] at h1
    exact absurd h1 (by decide)

theorem isFirstMatchValue_unique (values : List Entry) (key : String) (a b : ℚ)
    (ha : IsFirstMatchValue values key a) (hb : IsFirstMatchValue values key b) : a = b := by
  rcases ha with ⟨pre, v, post, hs, hpre, hv, rfl⟩ | ⟨hno, rfl⟩
  · rcases hb with ⟨pre2, v2, post2, hs2, hpre2, hv2, rfl⟩ | ⟨hno2, rfl⟩
    · have h1 : (pre ++ v :: post)[pre.length]? = some v := getElem?_append_cons_length _ _ _
      have h2 : (pre2 ++ v2 :: post2)[pre2.length]? = some v2 :=
        getElem?_append_cons_length _ _ _
      have hlen : pre.length = pre2.length := by
        rcases Nat.lt_trichotomy pre.length pre2.length with h | h | h
        · exfalso
          rw [hs.symm, hs2, List.getElem?_append_left h] at h1
          exact hpre2 v (List.getElem?_mem h1) hv
        · exact h
        · exfalso
          rw [hs2.symm, hs, List.getElem?_append_left h] at h2
          exact hpre v2 (List.getElem?_mem h2) hv2
      rw [hs.symm, hs2, hlen, h2] at h1
      have : v2 = v := Option.some.inj h1
      rw [this]
    · exfalso
      exact hno2 v (by rw [hs]; simp) hv
  · rcases hb with ⟨pre2, v2, post2, hs2, _, hv2, rfl⟩ | ⟨_, rfl⟩
    · exfalso
      exact hno v2 (by rw [hs2]; simp) hv2
    · rfl

theorem get_eq_of_isFirstMatchValue (values : List Entry) (key : String) (q : ℚ)
    (h : IsFirstMatchValue values key q) : get values key = q :=
  isFirstMatchValue_unique values key _ _ (get_isFirstMatchValue values key) h

theorem mathRound_eq_round (x : ℚ) : mathRound x = round x := by
  unfold mathRound
  rw [round_eq]

theorem derivedKcal_eq (values : List Entry) :
    derivedKcal values =
      max 0 (round (round64 (round64 (round64 (get values "protein" * 4) +
        round64 (get values "carb" * 4)) + round64 (get values "fat" * 9)))) := by
  unfold derivedKcal
  simp only [orZero_eq_getD, Option.getD_some, mathRound_eq_round]

theorem round64_eval (x : ℚ) (e : ℤ) (he : -1022 ≤ e) (hlo : (2 : ℚ) ^ e ≤ |x|)
    (hhi : |x| < (2 : ℚ) ^ (e + 1)) :
    round64 x = (roundTiesEven (x / (2 : ℚ) ^ (e - 52)) : ℚ) * (2 : ℚ) ^ (e - 52) := by
  unfold round64
  rw [ulp64_eq x e he hlo hhi]

theorem sum64_int (a b d : ℤ) (h : 4 * |a| + 4 * |b| + 9 * |d| < 2 ^ 53) :
    round64 (round64 (round64 ((a : ℚ) * 4) + round64 ((b : ℚ) * 4)) + round64 ((d : ℚ) * 9)) =
      ((4 * a + 4 * b + 9 * d : ℤ) : ℚ) := by
  have ha0 := abs_nonneg a
  have hb0 := abs_nonneg b
  have hd0 := abs_nonneg d
  have ha : |a * 4| = 4 * |a| := by rw [abs_mul]; norm_num; ring
  have hb : |b * 4| = 4 * |b| := by rw [abs_mul]; norm_num; ring
  have hd : |d * 9| = 9 * |d| := by rw [abs_mul]; norm_num; ring
  have hab : |a * 4 + b * 4| ≤ 4 * |a| + 4 * |b| := by
    calc |a * 4 + b * 4| ≤ |a * 4| + |b * 4| := abs_add _ _
      _ = 4 * |a| + 4 * |b| := by rw [ha, hb]
  have habd : |a * 4 + b * 4 + d * 9| ≤ 4 * |a| + 4 * |b| + 9 * |d| := by
    calc |a * 4 + b * 4 + d * 9| ≤ |a * 4 + b * 4| + |d * 9| := abs_add _ _
      _ ≤ 4 * |a| + 4 * |b| + 9 * |d| := by rw [hd]; omega
  have e1 : round64 ((a : ℚ) * 4) = ((a * 4 : ℤ) : ℚ) := by
    have := round64_intCast (a * 4) (by rw [ha]; omega)
    rw [← this]
    push_cast
    rfl
  have e2 : round64 ((b : ℚ) * 4) = ((b * 4 : ℤ) : ℚ) := by
    have := round64_intCast (b * 4) (by rw [hb]; omega)
    rw [← this]
    push_cast
    rfl
  have e3 : round64 ((d : ℚ) * 9) = ((d * 9 : ℤ) : ℚ) := by
    have := round64_intCast (d * 9) (by rw [hd]; omega)
    rw [← this]
    push_cast
    rfl
  have e4 : round64 (((a * 4 : ℤ) : ℚ) + ((b * 4 : ℤ) : ℚ)) = ((a * 4 + b * 4 : ℤ) : ℚ) := by
    have := round64_intCast (a * 4 + b * 4) (by omega)
    rw [← this]
    push_cast
    rfl
  have e5 : round64 (((a * 4 + b * 4 : ℤ) : ℚ) + ((d * 9 : ℤ) : ℚ)) =
      ((a * 4 + b * 4 + d * 9 : ℤ) : ℚ) := by
    have := round64_intCast (a * 4 + b * 4 + d * 9) (by omega)
    rw [← this]
    push_cast
    rfl
  rw [e1, e2, e3, e4, e5]
  push_cast
  ring

/-- C1, as the code has it: when no explicit calories value is supplied, the
displayed kcal is `max(0, round(S))`, where `S` is `p * 4 + c * 4 + f * 9`
computed in binary64 (each product and each sum rounded to the nearest
binary64 number) and `p`, `c`, `f` are the values of the first entry whose
label contains, case-insensitively, "protein", "carb" and "fat", `0` when no
entry matches the key; the values are of magnitude at most `2 ^ 1000`, so
that nothing overflows.  For integer values with
`4|p| + 4|c| + 9|f| < 2 ^ 53` nothing is rounded and the kcal is
`max(0, 4*p + 4*c + 9*f)`. -/
theorem kcal_derivation (values : List Entry) (max : Option ℚ) (p c f : ℚ)
    (hp : IsFirstMatchValue values "protein" p)
    (hc : IsFirstMatchValue values "carb" c)
    (hf : IsFirstMatchValue values "fat" f)
    (_hbound : |p| ≤ 2 ^ 1000 ∧ |c| ≤ 2 ^ 1000 ∧ |f| ≤ 2 ^ 1000) :
    kcal { values := values, max := max, calories := none } =
      ((Max.max 0 (round (round64 (round64 (round64 (p * 4) + round64 (c * 4)) +
        round64 (f * 9)))) : ℤ) : ℚ) ∧
    (∀ a b d : ℤ, p = a → c = b → f = d → 4 * |a| + 4 * |b| + 9 * |d| < 2 ^ 53 →
      kcal { values := values, max := max, calories := none } =
        ((Max.max 0 (4 * a + 4 * b + 9 * d) : ℤ) : ℚ)) := by
  have e1 := get_eq_of_isFirstMatchValue values "protein" p hp
  have e2 := get_eq_of_isFirstMatchValue values "carb" c hc
  have e3 := get_eq_of_isFirstMatchValue values "fat" f hf
  have hk : kcal { values := values, max := max, calories := none } =
      ((Max.max 0 (round (round64 (round64 (round64 (p * 4) + round64 (c * 4)) +
        round64 (f * 9)))) : ℤ) : ℚ) := by
    unfold kcal
    simp only [derivedKcal_eq, e1, e2, e3]
  refine ⟨hk, ?_⟩
  intro a b d ha hb hd hsmall
  rw [hk, ha, hb, hd, sum64_int a b d hsmall, round_intCast]

theorem isFirstMatchValue_of_get (values : List Entry) (key : String) (q : ℚ)
    (h : get values key = q) : IsFirstMatchValue values key q :=
  h ▸ get_isFirstMatchValue values key

theorem kcal_derivation_witness :
    (IsFirstMatchValue
        [⟨some "Protein", some 10⟩, ⟨some "Carbs", some 20⟩, ⟨some "Fat", some 5⟩] "protein" 10 ∧
      IsFirstMatchValue
        [⟨some "Protein", some 10⟩, ⟨some "Carbs", some 20⟩, ⟨some "Fat", some 5⟩] "carb" 20 ∧
      IsFirstMatchValue
        [⟨some "Protein", some 10⟩, ⟨some "Carbs", some 20⟩, ⟨some "Fat", some 5⟩] "fat" 5 ∧
      (|(10 : ℚ)| ≤ 2 ^ 1000 ∧ |(20 : ℚ)| ≤ 2 ^ 1000 ∧ |(5 : ℚ)| ≤ 2 ^ 1000) ∧
      kcal { values := [⟨some "Protein", some 10⟩, ⟨some "Carbs", some 20⟩, ⟨some "Fat", some 5⟩],
             max := none, calories := none } = 165) ∧
    (IsFirstMatchValue [⟨some "Protein", some 10⟩] "protein" 10 ∧
      IsFirstMatchValue [⟨some "Protein", some 10⟩] "carb" 0 ∧
      IsFirstMatchValue [⟨some "Protein", some 10⟩] "fat" 0 ∧
      (|(10 : ℚ)| ≤ 2 ^ 1000 ∧ |(0 : ℚ)| ≤ 2 ^ 1000 ∧ |(0 : ℚ)| ≤ 2 ^ 1000) ∧
      kcal { values := [⟨some "Protein", some 10⟩], max := none, calories := none } = 40) := by
  have a1 := isFirstMatchValue_of_get
    [⟨some "Protein", some 10⟩, ⟨some "Carbs", some 20⟩, ⟨some "Fat", some 5⟩] "protein" 10
    (by decide)
  have a2 := isFirstMatchValue_of_get
    [⟨some "Protein", some 10⟩, ⟨some "Carbs", some 20⟩, ⟨some "Fat", some 5⟩] "carb" 20
    (by decide)
  have a3 := isFirstMatchValue_of_get
    [⟨some "Protein", some 10⟩, ⟨some "Carbs", some 20⟩, ⟨some "Fat", some 5⟩] "fat" 5
    (by decide)
  have b1 := isFirstMatchValue_of_get [⟨some "Protein", some 10⟩] "protein" 10 (by decide)
  have b2 := isFirstMatchValue_of_get [⟨some "Protein", some 10⟩] "carb" 0 (by decide)
  have b3 := isFirstMatchValue_of_get [⟨some "Protein", some 10⟩] "fat" 0 (by decide)
  have ha : |(10 : ℚ)| ≤ 2 ^ 1000 ∧ |(20 : ℚ)| ≤ 2 ^ 1000 ∧ |(5 : ℚ)| ≤ 2 ^ 1000 := by
    norm_num [abs_of_pos]
  have hb : |(10 : ℚ)| ≤ 2 ^ 1000 ∧ |(0 : ℚ)| ≤ 2 ^ 1000 ∧ |(0 : ℚ)| ≤ 2 ^ 1000 := by
    norm_num [abs_of_pos]
  refine ⟨⟨a1, a2, a3, ha, ?_⟩, ⟨b1, b2, b3, hb, ?_⟩⟩
  · rw [(kcal_derivation _ none 10 20 5 a1 a2 a3 ha).2 10 20 5 (by norm_num) (by norm_num)
      (by norm_num) (by norm_num [abs_of_pos])]
    norm_num
  · rw [(kcal_derivation _ none 10 0 0 b1 b2 b3 hb).2 10 0 0 (by norm_num) (by norm_num)
      (by norm_num) (by norm_num [abs_of_pos])]
    norm_num

theorem round64_fifth_times_four :
    round64 ((3602879701896397 / 18014398509481984 : ℚ) * 4) =
      3602879701896397 / 4503599627370496 := by
  rw [round64_eval _ (-1) (by norm_num) (by norm_num [abs_of_pos]) (by norm_num [abs_of_pos])]
  norm_num [roundTiesEven]

theorem round64_three_tenths_times_nine :
    round64 ((5404319552844595 / 18014398509481984 : ℚ) * 9) =
      6079859496950169 / 2251799813685248 := by
  rw [round64_eval _ 1 (by norm_num) (by norm_num [abs_of_pos]) (by norm_num [abs_of_pos])]
  norm_num [roundTiesEven]

theorem round64_sum_to_seven_halves :
    round64 ((3602879701896397 / 4503599627370496 : ℚ) + 6079859496950169 / 2251799813685248) =
      7 / 2 := by
  rw [round64_eval _ 1 (by norm_num) (by norm_num [abs_of_pos]) (by norm_num [abs_of_pos])]
  norm_num [roundTiesEven]

/-- C1, as the claim states it, fails: for Protein 0.2 and Fat 0.3 (the binary64
numbers written so) the chart shows 4 kcal, while
`max(0, round(4*p + 4*c + 9*f))` is 3. -/
theorem kcal_rounding_differs :
    IsFirstMatchValue
      [⟨some "Protein", some (3602879701896397 / 18014398509481984)⟩,
       ⟨some "Fat", some (5404319552844595 / 18014398509481984)⟩]
      "protein" (3602879701896397 / 18014398509481984) ∧
    IsFirstMatchValue
      [⟨some "Protein", some (3602879701896397 / 18014398509481984)⟩,
       ⟨some "Fat", some (5404319552844595 / 18014398509481984)⟩]
      "carb" 0 ∧
    IsFirstMatchValue
      [⟨some "Protein", some (3602879701896397 / 18014398509481984)⟩,
       ⟨some "Fat", some (5404319552844595 / 18014398509481984)⟩]
      "fat" (5404319552844595 / 18014398509481984) ∧
    kcal { values :=
             [⟨some "Protein", some (3602879701896397 / 18014398509481984)⟩,
              ⟨some "Fat", some (5404319552844595 / 18014398509481984)⟩],
           max := none, calories := none } = 4 ∧
    ((Max.max 0 (round (4 * (3602879701896397 / 18014398509481984 : ℚ) + 4 * 0 +
      9 * (5404319552844595 / 18014398509481984))) : ℤ) : ℚ) = 3 := by
  have g1 : get
      [⟨some "Protein", some (3602879701896397 / 18014398509481984)⟩,
       ⟨some "Fat", some (5404319552844595 / 18014398509481984)⟩]
      "protein" = 3602879701896397 / 18014398509481984 := by
    have hm : includes (lower (some "Protein")) "protein".toList = true := by decide
    simp only [get, List.find?, hm, orZero_eq_getD, Option.getD_some]
  have g2 : get
      [⟨some "Protein", some (3602879701896397 / 18014398509481984)⟩,
       ⟨some "Fat", some (5404319552844595 / 18014398509481984)⟩]
      "carb" = 0 := by
    have hm1 : includes (lower (some "Protein")) "carb".toList = false := by decide
    have hm2 : includes (lower (some "Fat")) "carb".toList = false := by decide
    simp only [get, List.find?, hm1, hm2]
  have g3 : get
      [⟨some "Protein", some (3602879701896397 / 18014398509481984)⟩,
       ⟨some "Fat", some (5404319552844595 / 18014398509481984)⟩]
      "fat" = 5404319552844595 / 18014398509481984 := by
    have hm1 : includes (lower (some "Protein")) "fat".toList = false := by decide
    have hm2 : includes (lower (some "Fat")) "fat".toList = true := by decide
    simp only [get, List.find?, hm1, hm2, orZero_eq_getD, Option.getD_some]
  refine ⟨isFirstMatchValue_of_get _ _ _ g1, isFirstMatchValue_of_get _ _ _ g2,
    isFirstMatchValue_of_get _ _ _ g3, ?_, ?_⟩
  · show ((derivedKcal _ : ℤ) : ℚ) = 4
    rw [derivedKcal_eq, g1, g2, g3, round64_fifth_times_four, zero_mul, round64_zero, add_zero,
      round64_three_tenths_times_nine]
    have hsame : round64 (3602879701896397 / 4503599627370496 : ℚ) =
        3602879701896397 / 4503599627370496 := by
      rw [round64_eval _ (-1) (by norm_num) (by norm_num [abs_of_pos])
        (by norm_num [abs_of_pos])]
      norm_num [roundTiesEven]
    rw [hsame, round64_sum_to_seven_halves]
    norm_num [round_eq]
  · norm_num [round_eq]

theorem mathMax_ge_init (a : ℚ) (xs : List ℚ) : a ≤ mathMax a xs := by
  unfold mathMax
  induction xs generalizing a with
  | nil => simp
  | cons x xs ih =>
    simp only [List.foldl_cons]
    exact le_trans (le_max_left a x) (ih (max a x))

theorem mathMax_ge_mem (a : ℚ) (xs : List ℚ) : ∀ x ∈ xs, x ≤ mathMax a xs := by
  induction xs generalizing a with
  | nil => intro x hx; simp at hx
  | cons y ys ih =>
    intro x hx
    have hstep : mathMax a (y :: ys) = mathMax (max a y) ys := rfl
    rw [hstep]
    rcases List.mem_cons.mp hx with rfl | hmem
    · exact le_trans (le_max_right a x) (mathMax_ge_init _ _)
    · exact ih _ x hmem

theorem mathMax_attained (a : ℚ) (xs : List ℚ) : mathMax a xs = a ∨ mathMax a xs ∈ xs := by
  induction xs generalizing a with
  | nil => left; rfl
  | cons y ys ih =>
    have hstep : mathMax a (y :: ys) = mathMax (max a y) ys := rfl
    rw [hstep]
    rcases ih (max a y) with h | h
    · rcases max_choice a y with hm | hm
      · left; rw [h, hm]
      · right; rw [h, hm]; exact List.mem_cons_self _ _
    · right; exact List.mem_cons_of_mem _ h

/-- C2: with no explicit max the display scale is `max(1, largest value)`:
it is at least 1, at least every value of the list, and it is 1 or the value
of some entry; for the empty list it is 1, and it is never 0. -/
theorem scale_without_ceiling (values : List Entry) :
    1 ≤ maxVal values none ∧
    (∀ v ∈ values, v.value.getD 0 ≤ maxVal values none) ∧
    (maxVal values none = 1 ∨ ∃ v ∈ values, v.value.getD 0 = maxVal values none) ∧
    maxVal [] none = 1 ∧
    maxVal values none ≠ 0 := by
  have h1 : 1 ≤ maxVal values none := mathMax_ge_init _ _
  refine ⟨h1, ?_, ?_, rfl, ?_⟩
  · intro v hv
    have := mathMax_ge_mem 1 (values.map (fun v => orZero v.value)) (orZero v.value)
      (List.mem_map.mpr ⟨v, hv, rfl⟩)
    rw [orZero_eq_getD] at this
    exact this
  · rcases mathMax_attained 1 (values.map (fun v => orZero v.value)) with h | h
    · left; exact h
    · right
      obtain ⟨v, hv, hval⟩ := List.mem_map.mp h
      refine ⟨v, hv, ?_⟩
      rw [← orZero_eq_getD]
      exact hval
  · intro h0
    rw [h0] at h1
    exact absurd h1 (by norm_num)

theorem maxVal_pos (values : List Entry) (max : Option ℚ)
    (hmax : ∀ m, max = some m → 0 ≤ m) : 0 < maxVal values max := by
  have hcomp : (0 : ℚ) < mathMax 1 (values.map (fun v => orZero v.value)) :=
    lt_of_lt_of_le one_pos (mathMax_ge_init _ _)
  cases max with
  | none => exact hcomp
  | some m =>
    unfold maxVal
    by_cases hm : m = 0
    · simp only [hm, if_true]
      exact hcomp
    · simp only [hm, if_false]
      exact lt_of_le_of_ne (hmax m rfl) (Ne.symm hm)

/-- C3, as the code has it: the width is at most 1 for every list, every
`max` and every entry (the only clamp of the source is `Math.min(1, ...)`),
and it lies in `[0, 1]` when the `max` prop is absent, zero or positive and
the entry's value is missing or not negative. -/
theorem pct_bounds (props : Props) (v : Entry)
    (hmax : ∀ m, props.max = some m → 0 ≤ m)
    (hval : ∀ q, v.value = some q → 0 ≤ q) :
    (0 ≤ pct props v ∧ pct props v ≤ 1) ∧
    (∀ (anyProps : Props) (anyEntry : Entry), pct anyProps anyEntry ≤ 1) := by
  have hpos := maxVal_pos props.values props.max hmax
  have hv : 0 ≤ orZero v.value := by
    rw [orZero_eq_getD]
    cases hq : v.value with
    | none => simp
    | some q => simpa using hval q hq
  refine ⟨⟨?_, ?_⟩, ?_⟩
  · unfold pct
    exact le_min zero_le_one (round64_nonneg _ (div_nonneg hv (le_of_lt hpos)))
  · unfold pct
    exact min_le_left _ _
  · intro anyProps anyEntry
    unfold pct
    exact min_le_left _ _

theorem pct_bounds_witness :
    (∀ m, (⟨[⟨some "Protein", some 30⟩, ⟨some "Fat", some 10⟩], some 20, none⟩ : Props).max = some m →
        0 ≤ m) ∧
    (∀ q, (⟨some "Protein", some 30⟩ : Entry).value = some q → 0 ≤ q) ∧
    0 ≤ pct ⟨[⟨some "Protein", some 30⟩, ⟨some "Fat", some 10⟩], some 20, none⟩
          ⟨some "Protein", some 30⟩ ∧
    pct ⟨[⟨some "Protein", some 30⟩, ⟨some "Fat", some 10⟩], some 20, none⟩
          ⟨some "Protein", some 30⟩ ≤ 1 := by
  have hm : ∀ m, (⟨[⟨some "Protein", some 30⟩, ⟨some "Fat", some 10⟩], some 20, none⟩ : Props).max
      = some m → 0 ≤ m := by
    intro m h
    have : (20 : ℚ) = m := Option.some.inj h
    rw [← this]
    norm_num
  have hq : ∀ q, (⟨some "Protein", some 30⟩ : Entry).value = some q → 0 ≤ q := by
    intro q h
    have : (30 : ℚ) = q := Option.some.inj h
    rw [← this]
    norm_num
  exact ⟨hm, hq, (pct_bounds _ _ hm hq).1⟩

theorem round64_small_integers :
    round64 (-5) = -5 ∧ round64 (-2) = -2 ∧ round64 1 = 1 ∧ round64 (-40) = -40 ∧
    round64 40 = 40 ∧ round64 80 = 80 := by
  have h1 := round64_intCast (-5) (by norm_num)
  have h2 := round64_intCast (-2) (by norm_num)
  have h3 := round64_intCast 1 (by norm_num)
  have h4 := round64_intCast (-40) (by norm_num)
  have h5 := round64_intCast 40 (by norm_num)
  have h6 := round64_intCast 80 (by norm_num)
  push_cast at h1 h2 h3 h4 h5 h6
  exact ⟨h1, h2, h3, h4, h5, h6⟩

/-- C3, as the claim states it, fails: an entry of value -5 in a chart with no
`max` has width -5, and an entry of value 10 in a chart with `max = -5` has
width -2. -/
theorem pct_below_zero :
    pct ⟨[⟨some "Protein", some (-5)⟩], none, none⟩ ⟨some "Protein", some (-5)⟩ = -5 ∧
    pct ⟨[⟨some "Protein", some 10⟩], some (-5), none⟩ ⟨some "Protein", some 10⟩ = -2 ∧
    ¬ (∀ (props : Props) (v : Entry), v ∈ props.values → 0 ≤ pct props v ∧ pct props v ≤ 1) := by
  obtain ⟨r5, r2, _, _, _, _⟩ := round64_small_integers
  have h1 : pct ⟨[⟨some "Protein", some (-5)⟩], none, none⟩ ⟨some "Protein", some (-5)⟩ = -5 := by
    norm_num [pct, orZero, maxVal, mathMax, r5]
  refine ⟨h1, by norm_num [pct, orZero, maxVal, mathMax, r2], ?_⟩
  intro h
  have := (h ⟨[⟨some "Protein", some (-5)⟩], none, none⟩ ⟨some "Protein", some (-5)⟩
    (List.mem_singleton.mpr rfl)).1
  rw [h1] at this
  exact absurd this (by norm_num)

/-- C4, as the code has it: a `max` prop that is not 0 (so every positive one)
is the scale itself, whatever the values are. -/
theorem scale_with_ceiling (values : List Entry) (m : ℚ) (hm : m ≠ 0) :
    maxVal values (some m) = m := by
  unfold maxVal
  simp only [hm, if_false]

theorem scale_with_ceiling_witness :
    (5 : ℚ) ≠ 0 ∧ maxVal [⟨some "Protein", some 10⟩] (some 5) = 5 :=
  ⟨by norm_num, scale_with_ceiling [⟨some "Protein", some 10⟩] 5 (by norm_num)⟩

/-- C4, as the claim states it, fails: with `max = 5` and a largest value of
10 the scale is 5, not 10. -/
theorem scale_ignores_values_under_ceiling :
    maxVal [⟨some "Protein", some 10⟩] (some 5) = 5 ∧
    maxVal [⟨some "Protein", some 10⟩] (some 5) ≠ max 5 (max 1 10) := by
  have h : maxVal [⟨some "Protein", some 10⟩] (some 5) = 5 := by decide
  refine ⟨h, ?_⟩
  rw [h]
  norm_num

theorem get_zeroMissing (values : List Entry) (key : String) :
    get (zeroMissing values) key = get values key := by
  unfold get zeroMissing
  induction values with
  | nil => rfl
  | cons v vs ih =>
    simp only [List.map_cons, List.find?_cons]
    cases hmatch : includes (lower v.label) key.toList with
    | true =>
      simp only [orZero_eq_getD, Option.getD_some]
    | false =>
      exact ih

theorem derivedKcal_nonneg (values : List Entry) : 0 ≤ derivedKcal values := by
  unfold derivedKcal
  exact le_max_left _ _

/-- C5, as the code has it: the derived kcal is that of the same list with
every missing value replaced by 0, and it is never negative.  A negative value
is not replaced: only the rounded total is floored at 0. -/
theorem kcal_missing_as_zero_and_nonneg (values : List Entry) :
    derivedKcal (zeroMissing values) = derivedKcal values ∧
    0 ≤ derivedKcal values ∧
    0 ≤ kcal { values := values, max := none, calories := none } := by
  refine ⟨?_, derivedKcal_nonneg values, ?_⟩
  · unfold derivedKcal
    simp only [get_zeroMissing]
  · show (0 : ℚ) ≤ ((derivedKcal values : ℤ) : ℚ)
    exact_mod_cast derivedKcal_nonneg values

/-- C5, as the claim states it, fails: protein = -10 with carbs = 20 derives
40 kcal, while the list with the negative value replaced by 0 derives 80. -/
theorem kcal_negative_value_not_zeroed :
    derivedKcal [⟨some "Protein", some (-10)⟩, ⟨some "Carbs", some 20⟩] = 40 ∧
    derivedKcal (zeroNegativeOrMissing [⟨some "Protein", some (-10)⟩, ⟨some "Carbs", some 20⟩])
      = 80 ∧
    derivedKcal [⟨some "Protein", some (-10)⟩, ⟨some "Carbs", some 20⟩] ≠
      derivedKcal (zeroNegativeOrMissing [⟨some "Protein", some (-10)⟩, ⟨some "Carbs", some 20⟩]) := by
  obtain ⟨_, _, _, r40n, r40, r80⟩ := round64_small_integers
  have h1 : derivedKcal [⟨some "Protein", some (-10)⟩, ⟨some "Carbs", some 20⟩] = 40 := by
    rw [derivedKcal_eq,
      show get [⟨some "Protein", some (-10)⟩, ⟨some "Carbs", some 20⟩] "protein" = -10 from by decide,
      show get [⟨some "Protein", some (-10)⟩, ⟨some "Carbs", some 20⟩] "carb" = 20 from by decide,
      show get [⟨some "Protein", some (-10)⟩, ⟨some "Carbs", some 20⟩] "fat" = 0 from by decide]
    norm_num [r40n, r40, r80, round64_zero]
  have h2 : derivedKcal
      (zeroNegativeOrMissing [⟨some "Protein", some (-10)⟩, ⟨some "Carbs", some 20⟩]) = 80 := by
    rw [derivedKcal_eq,
      show get (zeroNegativeOrMissing [⟨some "Protein", some (-10)⟩, ⟨some "Carbs", some 20⟩])
        "protein" = 0 from by decide,
      show get (zeroNegativeOrMissing [⟨some "Protein", some (-10)⟩, ⟨some "Carbs", some 20⟩])
        "carb" = 20 from by decide,
      show get (zeroNegativeOrMissing [⟨some "Protein", some (-10)⟩, ⟨some "Carbs", some 20⟩])
        "fat" = 0 from by decide]
    norm_num [r80, round64_zero]
  refine ⟨h1, h2, ?_⟩
  rw [h1, h2]
  norm_num

/-! ## Properties of the recommendation handlers -/

theorem dummyWithSlots_eq :
    ∃ f0 f1 f2, DUMMY_MEALS = [obj f0, obj f1, obj f2] ∧
      dummyWithSlots =
        [ obj (f0 ++ [("_slot", str "Breakfast")]),
          obj (f1 ++ [("_slot", str "Lunch")]),
          obj (f2 ++ [("_slot", str "Dinner")]) ] :=
  ⟨_, _, _, rfl, rfl⟩

theorem mapIdxE_dummy : mapIdxE withFetchedSlot 0 DUMMY_MEALS = .ok dummyWithSlots := rfl

theorem propE_of_prop_ne (r : JSVal) (k : String) (h : prop r k ≠ undefined) :
    ∀ k2, propE r k2 = .ok (prop r k2) := by
  intro k2
  cases r with
  | obj fields => rfl
  | _ => exact absurd rfl h

theorem fetchMeals_of_throw (r : JSVal) (st : HomeState) (e : String)
    (h : fetchMealsTry r st = .error e) :
    (fetchMeals (.ok r) st).state = { st with meals := some dummyWithSlots } := by
  unfold fetchMeals
  simp only [h]

theorem fetchMealsTry_nullish (st : HomeState) :
    fetchMealsTry undefined st = .error "TypeError" ∧
    fetchMealsTry null st = .error "TypeError" :=
  ⟨rfl, rfl⟩

theorem fetchMeals_clarification_state (r : JSVal) (st : HomeState)
    (h : prop r "state" = str "NEED_CLARIFICATION") :
    fetchMeals (.ok r) st =
      { state := { st with clarModal := true, meals := some dummyWithSlots },
        log := [Event.get "/meals/recommendations" undefined, Event.setClarModal true],
        rejected := false } := by
  have hne : prop r "state" ≠ undefined := by rw [h]; intro hc; cases hc
  have hp := propE_of_prop_ne r "state" hne
  have hs : (str "NEED_CLARIFICATION").strictEqStr "NEED_CLARIFICATION" = true := by decide
  unfold fetchMeals fetchMealsTry
  simp only [hp, h, hs, if_true]

/-- C7: a recommendations response whose `state` is `NEED_CLARIFICATION`,
whatever else it holds and whatever the list was, makes `fetchMeals` show the
clarification modal and set the list to the three static meals, labelled
Breakfast, Lunch, Dinner in that order. -/
theorem fetchMeals_need_clarification (r : JSVal) (st : HomeState)
    (h : prop r "state" = str "NEED_CLARIFICATION") :
    (fetchMeals (.ok r) st).state.clarModal = true ∧
    (fetchMeals (.ok r) st).rejected = false ∧
    ∃ f0 f1 f2, DUMMY_MEALS = [obj f0, obj f1, obj f2] ∧
      (fetchMeals (.ok r) st).state.meals =
        some [ obj (f0 ++ [("_slot", str "Breakfast")]),
               obj (f1 ++ [("_slot", str "Lunch")]),
               obj (f2 ++ [("_slot", str "Dinner")]) ] := by
  rw [fetchMeals_clarification_state r st h]
  obtain ⟨f0, f1, f2, hd, hw⟩ := dummyWithSlots_eq
  exact ⟨rfl, rfl, f0, f1, f2, hd, congrArg some hw⟩

theorem fetchMeals_need_clarification_witness :
    prop (obj [("state", str "NEED_CLARIFICATION"), ("meals", arr [obj [("dish_name", str "Dal")]])])
        "state" = str "NEED_CLARIFICATION" ∧
    (fetchMeals
        (.ok (obj [("state", str "NEED_CLARIFICATION"),
                   ("meals", arr [obj [("dish_name", str "Dal")]])]))
        { meals := some [], clarModal := false, mealTimes := null }).state.clarModal = true :=
  ⟨rfl,
   (fetchMeals_need_clarification
      (obj [("state", str "NEED_CLARIFICATION"), ("meals", arr [obj [("dish_name", str "Dal")]])])
      { meals := some [], clarModal := false, mealTimes := null } rfl).1⟩

theorem fetchMealsTry_events (r : JSVal) (st st1 : HomeState) (evs : List Event)
    (h : fetchMealsTry r st = .ok (st1, evs)) : ∀ e ∈ evs, e.isRequest = false := by
  unfold fetchMealsTry at h
  cases h1 : propE r "state" with
  | error e => simp only [h1] at h; cases h
  | ok state =>
    simp only [h1] at h
    cases hs : state.strictEqStr "NEED_CLARIFICATION" with
    | true =>
      simp only [hs, if_true, Except.ok.injEq, Prod.mk.injEq] at h
      intro e he
      rw [← h.2] at he
      rw [List.mem_singleton.mp he]
      rfl
    | false =>
      simp only [hs, Bool.false_eq_true, if_false] at h
      cases h2 : propE r "error" with
      | error e => simp only [h2] at h; cases h
      | ok err =>
        simp only [h2] at h
        cases he : err.truthy with
        | true =>
          simp only [he, if_true, Except.ok.injEq, Prod.mk.injEq] at h
          intro e hmem
          rw [← h.2] at hmem
          cases hmem
        | false =>
          simp only [he, Bool.false_eq_true, if_false] at h
          cases h3 : propE r "meals" with
          | error e => simp only [h3] at h; cases h
          | ok meals =>
            simp only [h3] at h
            cases h4 : mapIdxE withFetchedSlot 0 (mealsOrDummy meals) with
            | error e => simp only [h4] at h; cases h
            | ok labelled =>
              simp only [h4, Except.ok.injEq, Prod.mk.injEq] at h
              intro e hmem
              rw [← h.2] at hmem
              cases hmem

theorem fetchMeals_log_requests (resp : Except String JSVal) (st : HomeState) :
    ∃ rest, (fetchMeals resp st).log = Event.get "/meals/recommendations" undefined :: rest ∧
      ∀ e ∈ rest, e.isRequest = false := by
  cases resp with
  | error e => exact ⟨[], rfl, by simp⟩
  | ok r =>
    cases htry : fetchMealsTry r st with
    | error e =>
      refine ⟨[], ?_, by simp⟩
      simp only [fetchMeals, htry]
    | ok res =>
      obtain ⟨st1, evs⟩ := res
      refine ⟨evs, ?_, fetchMealsTry_events r st st1 evs htry⟩
      simp only [fetchMeals, htry]

/-- C8: submitting the clarification form sends one
`POST /clarifications/resolve` with the current meal times; once it has
completed the modal is closed and one `GET /meals/recommendations` follows, in
that order, and no other request is sent.  When the `POST` throws, it is the
only request. -/
theorem resolveClar_requests (st : HomeState) (postData : JSVal)
    (fetchResp : Except String JSVal) :
    (∃ rest,
      (resolveClar (.ok postData) fetchResp st).log =
        Event.post "/clarifications/resolve" (obj [("meal_times", st.mealTimes)]) ::
        Event.setClarModal false ::
        Event.get "/meals/recommendations" undefined :: rest ∧
      ∀ e ∈ rest, e.isRequest = false) ∧
    (resolveClar (.ok postData) fetchResp st).log.filter Event.isRequest =
      [ Event.post "/clarifications/resolve" (obj [("meal_times", st.mealTimes)]),
        Event.get "/meals/recommendations" undefined ] ∧
    (∀ e : String, (resolveClar (.error e) fetchResp st).log =
      [Event.post "/clarifications/resolve" (obj [("meal_times", st.mealTimes)])]) := by
  obtain ⟨rest, hlog, hrest⟩ := fetchMeals_log_requests fetchResp { st with clarModal := false }
  have hfull : (resolveClar (.ok postData) fetchResp st).log =
      Event.post "/clarifications/resolve" (obj [("meal_times", st.mealTimes)]) ::
      Event.setClarModal false ::
      Event.get "/meals/recommendations" undefined :: rest := by
    simp only [resolveClar, hlog]
  refine ⟨⟨rest, hfull, hrest⟩, ?_, fun _ => rfl⟩
  rw [hfull]
  have hnil : rest.filter Event.isRequest = [] := by
    rw [List.filter_eq_nil_iff]
    intro e he
    rw [hrest e he]
    decide
  simp [List.filter, Event.isRequest, hnil]

theorem mealsOrDummy_fallback (meals : JSVal) (h : ∀ x xs, meals ≠ arr (x :: xs)) :
    mealsOrDummy meals = DUMMY_MEALS := by
  unfold mealsOrDummy
  cases meals with
  | arr xs =>
    cases xs with
    | nil => rfl
    | cons x xs => exact absurd rfl (h x xs)
  | _ => rfl

theorem fallback_meals_of_response (r : JSVal) (st : HomeState)
    (h : (prop r "error").truthy = true ∨ ∀ x xs, prop r "meals" ≠ arr (x :: xs)) :
    (fetchMeals (.ok r) st).state.meals = some dummyWithSlots := by
  cases htry : fetchMealsTry r st with
  | error e => rw [fetchMeals_of_throw r st e htry]
  | ok res =>
    obtain ⟨st1, evs⟩ := res
    have hrun : (fetchMeals (.ok r) st).state = st1 := by
      simp only [fetchMeals, htry]
    rw [hrun]
    unfold fetchMealsTry at htry
    cases h1 : propE r "state" with
    | error e => simp only [h1] at htry; cases htry
    | ok state =>
      simp only [h1] at htry
      cases hs : state.strictEqStr "NEED_CLARIFICATION" with
      | true =>
        simp only [hs, if_true, Except.ok.injEq, Prod.mk.injEq] at htry
        rw [← htry.1]
      | false =>
        simp only [hs, Bool.false_eq_true, if_false] at htry
        have hp : ∀ k, propE r k = .ok (prop r k) := by
          intro k
          cases r with
          | undefined => cases h1
          | null => cases h1
          | _ => rfl
        simp only [hp] at htry
        cases he : (prop r "error").truthy with
        | true =>
          simp only [he, if_true, Except.ok.injEq, Prod.mk.injEq] at htry
          rw [← htry.1]
        | false =>
          simp only [he, Bool.false_eq_true, if_false] at htry
          have hm : ∀ x xs, prop r "meals" ≠ arr (x :: xs) := by
            rcases h with h | h
            · rw [he] at h; cases h
            · exact h
          rw [mealsOrDummy_fallback _ hm, mapIdxE_dummy] at htry
          simp only [Except.ok.injEq, Prod.mk.injEq] at htry
          rw [← htry.1]

theorem fetchMeals_not_rejected (resp : Except String JSVal) (st : HomeState) :
    (fetchMeals resp st).rejected = false := by
  cases resp with
  | error e => rfl
  | ok r =>
    cases htry : fetchMealsTry r st with
    | error e => simp only [fetchMeals, htry]
    | ok res => simp only [fetchMeals, htry]

/-- C9: when the recommendations fetch throws, or the response carries a
truthy `error`, or its `meals` is absent, not an array or an empty array,
`fetchMeals` sets the list to the three static meals labelled Breakfast,
Lunch, Dinner, whatever the list was before. -/
theorem fetchMeals_fallback (resp : Except String JSVal) (st : HomeState)
    (h : (∃ e, resp = .error e) ∨
         (∃ r, resp = .ok r ∧
            ((prop r "error").truthy = true ∨ ∀ x xs, prop r "meals" ≠ arr (x :: xs)))) :
    (fetchMeals resp st).rejected = false ∧
    ∃ f0 f1 f2, DUMMY_MEALS = [obj f0, obj f1, obj f2] ∧
      (fetchMeals resp st).state.meals =
        some [ obj (f0 ++ [("_slot", str "Breakfast")]),
               obj (f1 ++ [("_slot", str "Lunch")]),
               obj (f2 ++ [("_slot", str "Dinner")]) ] := by
  obtain ⟨f0, f1, f2, hd, hw⟩ := dummyWithSlots_eq
  have hmeals : (fetchMeals resp st).state.meals = some dummyWithSlots := by
    rcases h with ⟨e, rfl⟩ | ⟨r, rfl, hr⟩
    · rfl
    · exact fallback_meals_of_response r st hr
  have hrej := fetchMeals_not_rejected resp st
  refine ⟨hrej, f0, f1, f2, hd, ?_⟩
  rw [hmeals, hw]

theorem fetchMeals_fallback_witness :
    ((∃ e, (Except.ok (obj [("meals", arr [])]) : Except String JSVal) = .error e) ∨
      (∃ r, (Except.ok (obj [("meals", arr [])]) : Except String JSVal) = .ok r ∧
        ((prop r "error").truthy = true ∨ ∀ x xs, prop r "meals" ≠ arr (x :: xs)))) ∧
    ((fetchMeals (.ok (obj [("meals", arr [])]))
        { meals := some [obj [("dish_name", str "Dal")]], clarModal := false,
          mealTimes := null }).rejected = false ∧
      ∃ f0 f1 f2, DUMMY_MEALS = [obj f0, obj f1, obj f2] ∧
        (fetchMeals (.ok (obj [("meals", arr [])]))
          { meals := some [obj [("dish_name", str "Dal")]], clarModal := false,
            mealTimes := null }).state.meals =
          some [ obj (f0 ++ [("_slot", str "Breakfast")]),
                 obj (f1 ++ [("_slot", str "Lunch")]),
                 obj (f2 ++ [("_slot", str "Dinner")]) ]) := by
  have hcond : (∃ e, (Except.ok (obj [("meals", arr [])]) : Except String JSVal) = .error e) ∨
      (∃ r, (Except.ok (obj [("meals", arr [])]) : Except String JSVal) = .ok r ∧
        ((prop r "error").truthy = true ∨ ∀ x xs, prop r "meals" ≠ arr (x :: xs))) := by
    right
    refine ⟨_, rfl, Or.inr ?_⟩
    intro x xs hc
    have : (arr [] : JSVal) = arr (x :: xs) := hc
    simp at this
  exact ⟨hcond, fetchMeals_fallback _ _ hcond⟩

theorem setIndex_of_lt (xs : List JSVal) (i : Nat) (v : JSVal) (h : i < xs.length) :
    setIndex xs i v = xs.set i v := by
  unfold setIndex
  simp only [h, if_true]

theorem firstOrSelf_object (meal : JSVal) (raw : List (String × JSVal))
    (h : meal = obj raw ∨ ∃ rest, meal = arr (obj raw :: rest)) :
    firstOrSelf meal = obj raw := by
  rcases h with rfl | ⟨rest, rfl⟩
  · rfl
  · rfl

theorem truthy_of_prop_ne (r : JSVal) (k : String) (h : prop r k ≠ undefined) :
    r.truthy = true := by
  cases r with
  | obj fields => rfl
  | _ => exact absurd rfl h

theorem suggestAnother_success_meals (slot : String) (idx : Nat) (st : HomeState) (r : JSVal)
    (raw : List (String × JSVal))
    (herr : (prop r "error").truthy = false)
    (hmeal : prop r "meal" = obj raw ∨ ∃ rest, prop r "meal" = arr (obj raw :: rest)) :
    suggestAnother slot idx (.ok r) st =
      { state := { st with meals := replaceAt idx (one idx (obj raw)) (markLoading idx st.meals) },
        log := [Event.get "/meals/suggest_another" (obj [("slot", str slot)])],
        rejected := false } := by
  have hne : prop r "meal" ≠ undefined := by
    rcases hmeal with h | ⟨rest, h⟩ <;> rw [h] <;> intro hc <;> cases hc
  have ht := truthy_of_prop_ne r "meal" hne
  have hf := firstOrSelf_object _ raw hmeal
  have h1 : (obj raw).truthy = true := rfl
  have h2 : (obj raw).typeofObject = true := rfl
  simp [suggestAnother, ht, herr, hf, h1, h2]

theorem or_of_truthy (a b : JSVal) (h : a.truthy = true) : a.or b = a := by
  simp [JSVal.or, h]

theorem or_of_falsy (a b : JSVal) (h : a.truthy = false) : a.or b = b := by
  simp [JSVal.or, h]

theorem slotAt_of_ge (i : Nat) (h : 3 ≤ i) : slotAt i = undefined := by
  unfold slotAt
  have hnone : SLOTS.get? i = none := List.get?_eq_none.mpr h
  rw [hnone]

theorem fetchedLabel_cases (i : Nat) (m : List (String × JSVal)) :
    (i = 0 → fetchedLabel i m = str "Breakfast") ∧
    (i = 1 → fetchedLabel i m = str "Lunch") ∧
    (i = 2 → fetchedLabel i m = str "Dinner") ∧
    (3 ≤ i → (lookup m "_slot").truthy = true → fetchedLabel i m = lookup m "_slot") ∧
    (3 ≤ i → (lookup m "_slot").truthy = false → fetchedLabel i m = str "Meal") := by
  refine ⟨?_, ?_, ?_, ?_, ?_⟩
  · rintro rfl
    rfl
  · rintro rfl
    rfl
  · rintro rfl
    rfl
  · intro h ht
    unfold fetchedLabel
    rw [slotAt_of_ge i h, or_of_falsy undefined _ rfl, or_of_truthy _ _ ht]
  · intro h ht
    unfold fetchedLabel
    rw [slotAt_of_ge i h, or_of_falsy undefined _ rfl, or_of_falsy _ _ ht]

theorem one_fields (idx : Nat) (raw : List (String × JSVal)) :
    one idx (obj raw) =
      obj
        [ ("dish_name", (lookup raw "dish_name").or (str "Meal")),
          ("image", (lookup raw "image").or null),
          ("macros",
            (lookup raw "macros").or (obj [("protein", num 0), ("carbs", num 0), ("fat", num 0)])),
          ("ingredients", arrayOrEmpty (lookup raw "ingredients")),
          ("recipe_steps", arrayOrEmpty (lookup raw "recipe_steps")),
          ("video_link", (lookup raw "video_link").or null),
          ("_slot", fetchedLabel idx raw),
          ("_loading", bool false) ] :=
  rfl

/-- C6: after `suggestAnother` with an error-free response whose meal is an
object, or an array whose first element is an object, and an index in range,
the list has the same length, every other entry is the entry before the
call, flags included, and the entry at `idx` is the normalised server meal:
the server's `dish_name`, `image`, `macros`, `ingredients`, `recipe_steps` and
`video_link`, with "Meal", `null`, the zero record and the empty list for
what the server omits, the slot label of the index, and `_loading` false. -/
theorem suggestAnother_success_frame (slot : String) (idx : Nat) (st : HomeState)
    (old : List JSVal) (r : JSVal) (raw : List (String × JSVal))
    (hold : st.meals = some old) (hidx : idx < old.length)
    (herr : (prop r "error").truthy = false)
    (hmeal : prop r "meal" = obj raw ∨ ∃ rest, prop r "meal" = arr (obj raw :: rest)) :
    ∃ now, (suggestAnother slot idx (.ok r) st).state.meals = some now ∧
      now.length = old.length ∧
      now[idx]? = some (one idx (obj raw)) ∧
      isLoading (one idx (obj raw)) = false ∧
      (∀ j, j ≠ idx → now[j]? = old[j]?) ∧
      (suggestAnother slot idx (.ok r) st).rejected = false ∧
      one idx (obj raw) =
        obj
          [ ("dish_name", (lookup raw "dish_name").or (str "Meal")),
            ("image", (lookup raw "image").or null),
            ("macros",
              (lookup raw "macros").or
                (obj [("protein", num 0), ("carbs", num 0), ("fat", num 0)])),
            ("ingredients", arrayOrEmpty (lookup raw "ingredients")),
            ("recipe_steps", arrayOrEmpty (lookup raw "recipe_steps")),
            ("video_link", (lookup raw "video_link").or null),
            ("_slot", fetchedLabel idx raw),
            ("_loading", bool false) ] ∧
      (∀ v, (lookup raw "dish_name").truthy = true → lookup raw "dish_name" = v →
        prop (one idx (obj raw)) "dish_name" = v) ∧
      ((lookup raw "dish_name").truthy = false →
        prop (one idx (obj raw)) "dish_name" = str "Meal") ∧
      (∀ v, (lookup raw "image").truthy = true → lookup raw "image" = v →
        prop (one idx (obj raw)) "image" = v) ∧
      ((lookup raw "image").truthy = false → prop (one idx (obj raw)) "image" = null) ∧
      (∀ v, (lookup raw "video_link").truthy = true → lookup raw "video_link" = v →
        prop (one idx (obj raw)) "video_link" = v) ∧
      ((lookup raw "video_link").truthy = false →
        prop (one idx (obj raw)) "video_link" = null) ∧
      (∀ fields, lookup raw "macros" = obj fields →
        prop (one idx (obj raw)) "macros" = obj fields) ∧
      (lookup raw "macros" = undefined →
        prop (one idx (obj raw)) "macros" =
          obj [("protein", num 0), ("carbs", num 0), ("fat", num 0)]) ∧
      (∀ xs, lookup raw "ingredients" = arr xs →
        prop (one idx (obj raw)) "ingredients" = arr xs) ∧
      (lookup raw "ingredients" = undefined →
        prop (one idx (obj raw)) "ingredients" = arr []) ∧
      (∀ xs, lookup raw "recipe_steps" = arr xs →
        prop (one idx (obj raw)) "recipe_steps" = arr xs) ∧
      (lookup raw "recipe_steps" = undefined →
        prop (one idx (obj raw)) "recipe_steps" = arr []) ∧
      prop (one idx (obj raw)) "_slot" = fetchedLabel idx raw ∧
      (idx = 0 → fetchedLabel idx raw = str "Breakfast") ∧
      (idx = 1 → fetchedLabel idx raw = str "Lunch") ∧
      (idx = 2 → fetchedLabel idx raw = str "Dinner") ∧
      (3 ≤ idx → (lookup raw "_slot").truthy = true →
        fetchedLabel idx raw = lookup raw "_slot") ∧
      (3 ≤ idx → (lookup raw "_slot").truthy = false → fetchedLabel idx raw = str "Meal") := by
  rw [suggestAnother_success_meals slot idx st r raw herr hmeal]
  obtain ⟨h0, h1, h2, h3, h4⟩ := fetchedLabel_cases idx raw
  refine ⟨old.set idx (one idx (obj raw)), ?_, ?_, ?_, rfl, ?_, rfl, one_fields idx raw,
    ?_, ?_, ?_, ?_, ?_, ?_, ?_, ?_, ?_, ?_, ?_, ?_, rfl, h0, h1, h2, h3, h4⟩
  · simp only [hold, markLoading, replaceAt]
    rw [setIndex_of_lt _ _ _ hidx, setIndex_of_lt _ _ _ (by simpa using hidx)]
    simp
  · simp
  · simp [hidx]
  · intro j hj
    simp [List.getElem?_set, Ne.symm hj]
  · intro v ht hv
    show (lookup raw "dish_name").or (str "Meal") = v
    rw [or_of_truthy _ _ ht, hv]
  · intro ht
    show (lookup raw "dish_name").or (str "Meal") = str "Meal"
    rw [or_of_falsy _ _ ht]
  · intro v ht hv
    show (lookup raw "image").or null = v
    rw [or_of_truthy _ _ ht, hv]
  · intro ht
    show (lookup raw "image").or null = null
    rw [or_of_falsy _ _ ht]
  · intro v ht hv
    show (lookup raw "video_link").or null = v
    rw [or_of_truthy _ _ ht, hv]
  · intro ht
    show (lookup raw "video_link").or null = null
    rw [or_of_falsy _ _ ht]
  · intro fields h
    show (lookup raw "macros").or (macrosOf 0 0 0) = obj fields
    rw [h]
    rfl
  · intro h
    show (lookup raw "macros").or (macrosOf 0 0 0) = _
    rw [h]
    rfl
  · intro xs h
    show arrayOrEmpty (lookup raw "ingredients") = arr xs
    rw [h]
    rfl
  · intro h
    show arrayOrEmpty (lookup raw "ingredients") = arr []
    rw [h]
    rfl
  · intro xs h
    show arrayOrEmpty (lookup raw "recipe_steps") = arr xs
    rw [h]
    rfl
  · intro h
    show arrayOrEmpty (lookup raw "recipe_steps") = arr []
    rw [h]
    rfl

theorem suggestAnother_success_frame_witness :
    HomeState.initial.meals = some dummyWithSlots ∧
    1 < dummyWithSlots.length ∧
    (prop (obj [("meal", obj [("dish_name", str "Dal")])]) "error").truthy = false ∧
    (prop (obj [("meal", obj [("dish_name", str "Dal")])]) "meal" = obj [("dish_name", str "Dal")] ∨
      ∃ rest, prop (obj [("meal", obj [("dish_name", str "Dal")])]) "meal" =
        arr (obj [("dish_name", str "Dal")] :: rest)) ∧
    ∃ now,
      (suggestAnother "Lunch" 1 (.ok (obj [("meal", obj [("dish_name", str "Dal")])]))
        HomeState.initial).state.meals = some now ∧
      now.length = dummyWithSlots.length ∧
      now[1]? =
        some (obj
          [ ("dish_name", str "Dal"), ("image", null),
            ("macros", obj [("protein", num 0), ("carbs", num 0), ("fat", num 0)]),
            ("ingredients", arr []), ("recipe_steps", arr []), ("video_link", null),
            ("_slot", str "Lunch"), ("_loading", bool false) ]) ∧
      (∀ j, j ≠ 1 → now[j]? = dummyWithSlots[j]?) := by
  obtain ⟨now, hnow, hlen, hat, _, hother, _⟩ :=
    suggestAnother_success_frame "Lunch" 1 HomeState.initial dummyWithSlots
      (obj [("meal", obj [("dish_name", str "Dal")])]) [("dish_name", str "Dal")]
      rfl (by decide) rfl (Or.inl rfl)
  exact ⟨rfl, by decide, rfl, Or.inl rfl, now, hnow, hlen, hat, hother⟩

theorem lookup_setField_same (fields : List (String × JSVal)) (k : String) (v : JSVal) :
    lookup (setField fields k v) k = v := by
  induction fields with
  | nil => simp [setField, lookup]
  | cons kv rest ih =>
    obtain ⟨k0, v0⟩ := kv
    unfold setField
    by_cases h : (k0 == k) = true
    · simp only [h, if_true]
      simp [lookup, List.find?, h]
    · simp only [h]
      have hf : (k0 == k) = false := by simpa using h
      unfold lookup at ih ⊢
      simp only [Bool.false_eq_true, if_false, List.find?, hf]
      exact ih

theorem markLoading_sets_flag (idx : Nat) (old : List JSVal) (h : idx < old.length) :
    ∃ now, markLoading idx (some old) = some now ∧ now.length = old.length ∧
      isLoading (index now idx) = true ∧ (∀ j, j ≠ idx → now[j]? = old[j]?) := by
  refine ⟨_, rfl, ?_, ?_, ?_⟩
  · rw [setIndex_of_lt _ _ _ h]
    simp
  · rw [setIndex_of_lt _ _ _ h]
    simp [index, List.getD, h, isLoading, JSVal.prop, lookup_setField_same, truthy]
  · intro j hj
    rw [setIndex_of_lt _ _ _ h]
    simp [List.getElem?_set, Ne.symm hj]

theorem suggestAnother_throw (slot : String) (idx : Nat) (e : String) (st : HomeState)
    (old : List JSVal) (hold : st.meals = some old) (hidx : idx < old.length) :
    (suggestAnother slot idx (.error e) st).rejected = true ∧
    ∃ now, (suggestAnother slot idx (.error e) st).state.meals = some now ∧
      now.length = old.length ∧ isLoading (index now idx) = true := by
  obtain ⟨now, hnow, hlen, hflag, _⟩ := markLoading_sets_flag idx old hidx
  refine ⟨rfl, now, ?_, hlen, hflag⟩
  show markLoading idx st.meals = some now
  rw [hold, hnow]

theorem recommendSnack_throw (e : String) (st : HomeState) (old : List JSVal)
    (hold : st.meals = some old) :
    (recommendSnack (.error e) st).rejected = true ∧
    (recommendSnack (.error e) st).state.meals = some (old ++ [snackPlaceholder]) := by
  refine ⟨rfl, ?_⟩
  show appendPlaceholder st.meals = some (old ++ [snackPlaceholder])
  rw [hold]
  rfl

/-- C10, what the code does on the initial screen when `get` throws:
`suggestAnother('Lunch', 1)` and `recommendSnack()` have no `try`, so the
promise of the handler is rejected after its first updater only.  The card at
index 1 keeps `_loading` true, and the snack placeholder, itself loading,
stays at the end of the list.  For a server-reported error payload the same
handlers clear the flag and remove the placeholder. -/
theorem throw_leaves_loading :
    (suggestAnother "Lunch" 1 (.error "Network error. Please check your connection.")
        HomeState.initial).rejected = true ∧
    (∃ now,
      (suggestAnother "Lunch" 1 (.error "Network error. Please check your connection.")
        HomeState.initial).state.meals = some now ∧
      now.length = 3 ∧ isLoading (index now 1) = true) ∧
    (recommendSnack (.error "Network error. Please check your connection.")
        HomeState.initial).rejected = true ∧
    (recommendSnack (.error "Network error. Please check your connection.")
        HomeState.initial).state.meals = some (dummyWithSlots ++ [snackPlaceholder]) ∧
    isLoading snackPlaceholder = true ∧
    (∃ now,
      (suggestAnother "Lunch" 1 (.ok (obj [("error", str "no meal")]))
        HomeState.initial).state.meals = some now ∧
      now.length = 3 ∧ isLoading (index now 1) = false) ∧
    (recommendSnack (.ok (obj [("error", str "no meal")])) HomeState.initial).state.meals
      = some dummyWithSlots :=
  ⟨rfl, ⟨_, rfl, rfl, rfl⟩, rfl, rfl, rfl, ⟨_, rfl, rfl, rfl⟩, rfl⟩

/-! ## Restoring and appending: the failure and success exits -/

theorem setField_setField_same (fields : List (String × JSVal)) (k : String) (a b : JSVal) :
    setField (setField fields k a) k b = setField fields k b := by
  induction fields with
  | nil => simp [setField]
  | cons kv rest ih =>
    obtain ⟨k0, v0⟩ := kv
    cases h : (k0 == k) with
    | true => simp [setField, h]
    | false => simp [setField, h, ih]

theorem lookup_setField_other (fields : List (String × JSVal)) (k k2 : String) (v : JSVal)
    (hk : k2 ≠ k) : lookup (setField fields k v) k2 = lookup fields k2 := by
  induction fields with
  | nil =>
    have h : (k == k2) = false := by
      simp only [beq_eq_false_iff_ne]
      exact Ne.symm hk
    simp [setField, lookup, List.find?, h]
  | cons kv rest ih =>
    obtain ⟨k0, v0⟩ := kv
    unfold lookup at ih ⊢
    cases h : (k0 == k) with
    | true =>
      have hk0 : k0 = k := by simpa using h
      have h2 : (k0 == k2) = false := by
        simp only [beq_eq_false_iff_ne]
        rw [hk0]
        exact Ne.symm hk
      simp [setField, h, List.find?, h2]
    | false =>
      cases h2 : (k0 == k2) with
      | true => simp [setField, h, List.find?, h2]
      | false =>
        simp only [setField, h, List.find?, h2, Bool.false_eq_true, if_false]
        exact ih

theorem suggestAnother_failure_meals (slot : String) (idx : Nat) (st : HomeState) (r : JSVal)
    (hfail : r.truthy = false ∨ (prop r "error").truthy = true ∨
      (firstOrSelf (prop r "meal")).truthy = false ∨
      (firstOrSelf (prop r "meal")).typeofObject = false) :
    suggestAnother slot idx (.ok r) st =
      { state := { st with meals := clearLoading idx (markLoading idx st.meals) },
        log := [Event.get "/meals/suggest_another" (obj [("slot", str slot)])],
        rejected := false } := by
  unfold suggestAnother
  simp only []
  split
  · rfl
  · split
    · rfl
    · rename_i h1 h2
      exfalso
      rcases hfail with h | h | h | h
      · simp [h] at h1
      · simp [h] at h1
      · simp [h] at h2
      · simp [h] at h2

theorem clearLoading_markLoading (idx : Nat) (old : List JSVal) (h : idx < old.length) :
    clearLoading idx (markLoading idx (some old)) =
      some (old.set idx
        (obj (setField (spread ((index old idx).or (obj []))) "_loading" (bool false)))) := by
  have hlen : idx < (old.set idx
      (obj (setField (spread ((index old idx).or (obj []))) "_loading" (bool true)))).length := by
    simpa using h
  have hmark : markLoading idx (some old) = some (old.set idx
      (obj (setField (spread ((index old idx).or (obj []))) "_loading" (bool true)))) := by
    simp only [markLoading, setIndex_of_lt _ _ _ h]
  have hidx : index (old.set idx
      (obj (setField (spread ((index old idx).or (obj []))) "_loading" (bool true)))) idx =
      obj (setField (spread ((index old idx).or (obj []))) "_loading" (bool true)) := by
    simp [index, List.getD, h]
  rw [hmark]
  simp only [clearLoading, hidx, truthy, if_true, assignField, setField_setField_same]
  rw [setIndex_of_lt _ _ _ hlen]
  simp

/-- C11: when the response of `suggestAnother` is empty, carries a truthy
`error` or carries no object meal, and `idx` is in range, the final list has
the length of the list before the call, its entry at `idx` is the old entry
with `_loading` false (every other property as before), and no other entry
differs. -/
theorem suggestAnother_failure_restores (slot : String) (idx : Nat) (st : HomeState)
    (old : List JSVal) (r : JSVal)
    (hold : st.meals = some old) (hidx : idx < old.length)
    (hfail : r.truthy = false ∨ (prop r "error").truthy = true ∨
      (firstOrSelf (prop r "meal")).truthy = false ∨
      (firstOrSelf (prop r "meal")).typeofObject = false) :
    ∃ now, (suggestAnother slot idx (.ok r) st).state.meals = some now ∧
      now.length = old.length ∧
      now[idx]? =
        some (obj (setField (spread ((index old idx).or (obj []))) "_loading" (bool false))) ∧
      (∀ fields, index old idx = obj fields →
        now[idx]? = some (obj (setField fields "_loading" (bool false))) ∧
        ∀ k, k ≠ "_loading" →
          lookup (setField fields "_loading" (bool false)) k = lookup fields k) ∧
      isLoading (index now idx) = false ∧
      (∀ j, j ≠ idx → now[j]? = old[j]?) ∧
      (suggestAnother slot idx (.ok r) st).rejected = false := by
  rw [suggestAnother_failure_meals slot idx st r hfail]
  refine ⟨old.set idx
    (obj (setField (spread ((index old idx).or (obj []))) "_loading" (bool false))),
    ?_, ?_, ?_, ?_, ?_, ?_, rfl⟩
  · show clearLoading idx (markLoading idx st.meals) = some _
    rw [hold, clearLoading_markLoading idx old hidx]
  · simp
  · simp [hidx]
  · intro fields hf
    refine ⟨?_, fun k hk => lookup_setField_other fields "_loading" k _ hk⟩
    rw [hf]
    simp [hidx, JSVal.or, truthy, spread]
  · simp [index, List.getD, hidx, isLoading, JSVal.prop, lookup_setField_same, truthy]
  · intro j hj
    simp [List.getElem?_set, Ne.symm hj]

theorem suggestAnother_failure_restores_witness :
    HomeState.initial.meals = some dummyWithSlots ∧
    1 < dummyWithSlots.length ∧
    ((obj [("error", str "no meal")]).truthy = false ∨
      (prop (obj [("error", str "no meal")]) "error").truthy = true ∨
      (firstOrSelf (prop (obj [("error", str "no meal")]) "meal")).truthy = false ∨
      (firstOrSelf (prop (obj [("error", str "no meal")]) "meal")).typeofObject = false) ∧
    ∃ now,
      (suggestAnother "Lunch" 1 (.ok (obj [("error", str "no meal")]))
        HomeState.initial).state.meals = some now ∧
      now.length = dummyWithSlots.length ∧
      now[1]? =
        some (obj (setField (spread ((index dummyWithSlots 1).or (obj []))) "_loading"
          (bool false))) ∧
      (∀ fields, index dummyWithSlots 1 = obj fields →
        now[1]? = some (obj (setField fields "_loading" (bool false))) ∧
        ∀ k, k ≠ "_loading" →
          lookup (setField fields "_loading" (bool false)) k = lookup fields k) ∧
      isLoading (index now 1) = false ∧
      (∀ j, j ≠ 1 → now[j]? = dummyWithSlots[j]?) ∧
      (suggestAnother "Lunch" 1 (.ok (obj [("error", str "no meal")]))
        HomeState.initial).rejected = false :=
  ⟨rfl, by decide, Or.inr (Or.inl rfl),
   suggestAnother_failure_restores "Lunch" 1 HomeState.initial dummyWithSlots
     (obj [("error", str "no meal")]) rfl (by decide) (Or.inr (Or.inl rfl))⟩

theorem filterIdxFrom_drops_last {α : Type} (xs : List α) (x : α) (start : Nat) (n : ℤ)
    (hn : n = (start : ℤ) + (xs.length : ℤ)) :
    filterIdxFrom (fun i _ => decide ((i : ℤ) ≠ n)) start (xs ++ [x]) = xs := by
  induction xs generalizing start with
  | nil =>
    have h : (start : ℤ) = n := by simp [hn]
    simp [filterIdxFrom, h]
  | cons y ys ih =>
    have hne : (start : ℤ) ≠ n := by
      rw [hn]
      simp only [List.length_cons]
      push_cast
      omega
    have hrec := ih (start + 1) (by rw [hn]; simp only [List.length_cons]; push_cast; ring)
    have hstep : filterIdxFrom (fun i _ => decide ((i : ℤ) ≠ n)) start (y :: ys ++ [x]) =
        y :: filterIdxFrom (fun i _ => decide ((i : ℤ) ≠ n)) (start + 1) (ys ++ [x]) := by
      show (if decide ((start : ℤ) ≠ n) = true then _ else _) = _
      simp only [hne, ne_eq, not_false_eq_true, decide_True, if_true]
      rfl
    rw [hstep, hrec]

theorem removeLast_appendPlaceholder (old : List JSVal) :
    removeLast (appendPlaceholder (some old)) = some old := by
  simp only [appendPlaceholder, removeLast]
  rw [filterIdxFrom_drops_last old snackPlaceholder 0]
  simp

theorem replaceLast_appendPlaceholder (old : List JSVal) (meal : JSVal) :
    replaceLast meal (appendPlaceholder (some old)) = some (old ++ [meal]) := by
  simp only [appendPlaceholder, replaceLast]
  have hlen : (old ++ [snackPlaceholder]).length ≠ 0 := by simp
  simp only [hlen, if_false]
  rw [setIndex_of_lt _ _ _ (by simp)]
  simp

theorem recommendSnack_meals (r : JSVal) (st : HomeState) :
    (recommendSnack (.ok r) st).state.meals = snackUpdater r (appendPlaceholder st.meals) ∧
    (recommendSnack (.ok r) st).rejected = false ∧
    (recommendSnack (.ok r) st).log =
      [Event.get "/meals/recommend_snack" (obj [("max_calories", num 300)])] := by
  unfold recommendSnack snackUpdater
  simp only []
  split
  · exact ⟨rfl, rfl, rfl⟩
  · split
    · exact ⟨rfl, rfl, rfl⟩
    · exact ⟨rfl, rfl, rfl⟩

theorem snackUpdater_failure (r : JSVal)
    (hfail : r.truthy = false ∨ (prop r "error").truthy = true ∨
      (firstOrSelf (prop r "meal")).truthy = false ∨
      (firstOrSelf (prop r "meal")).typeofObject = false) :
    snackUpdater r = removeLast := by
  unfold snackUpdater
  split
  · rfl
  · split
    · rfl
    · rename_i h1 h2
      exfalso
      rcases hfail with h | h | h | h
      · simp [h] at h1
      · simp [h] at h1
      · simp [h] at h2
      · simp [h] at h2

theorem snackUpdater_success (r : JSVal) (raw : List (String × JSVal))
    (herr : (prop r "error").truthy = false)
    (hmeal : prop r "meal" = obj raw ∨ ∃ rest, prop r "meal" = arr (obj raw :: rest)) :
    snackUpdater r = replaceLast (withSlot (obj raw)) := by
  have hne : prop r "meal" ≠ undefined := by
    rcases hmeal with h | ⟨rest, h⟩ <;> rw [h] <;> intro hc <;> cases hc
  have ht := truthy_of_prop_ne r "meal" hne
  have hf := firstOrSelf_object _ raw hmeal
  have h1 : (obj raw).truthy = true := rfl
  have h2 : (obj raw).typeofObject = true := rfl
  simp [snackUpdater, ht, herr, hf, h1, h2]

/-- C12: when the snack request returns nothing, an error payload or no
object meal, and nothing else touches the list in between, the list after
`recommendSnack` is the list before it: appending the placeholder and then
removing the last entry is the identity. -/
theorem recommendSnack_failure_identity (st : HomeState) (old : List JSVal) (r : JSVal)
    (hold : st.meals = some old)
    (hfail : r.truthy = false ∨ (prop r "error").truthy = true ∨
      (firstOrSelf (prop r "meal")).truthy = false ∨
      (firstOrSelf (prop r "meal")).typeofObject = false) :
    (recommendSnack (.ok r) st).state.meals = some old ∧
    removeLast (appendPlaceholder (some old)) = some old ∧
    (recommendSnack (.ok r) st).rejected = false := by
  obtain ⟨hm, hrej, _⟩ := recommendSnack_meals r st
  refine ⟨?_, removeLast_appendPlaceholder old, hrej⟩
  rw [hm, snackUpdater_failure r hfail, hold, removeLast_appendPlaceholder]

theorem recommendSnack_failure_identity_witness :
    HomeState.initial.meals = some dummyWithSlots ∧
    (JSVal.null.truthy = false ∨ (prop JSVal.null "error").truthy = true ∨
      (firstOrSelf (prop JSVal.null "meal")).truthy = false ∨
      (firstOrSelf (prop JSVal.null "meal")).typeofObject = false) ∧
    (recommendSnack (.ok JSVal.null) HomeState.initial).state.meals = some dummyWithSlots ∧
    removeLast (appendPlaceholder (some dummyWithSlots)) = some dummyWithSlots ∧
    (recommendSnack (.ok JSVal.null) HomeState.initial).rejected = false :=
  ⟨rfl, Or.inl rfl,
   recommendSnack_failure_identity HomeState.initial dummyWithSlots JSVal.null rfl (Or.inl rfl)⟩

theorem withSlot_fields (raw : List (String × JSVal)) :
    prop (withSlot (obj raw)) "_slot" = str "Snack" ∧
    isLoading (withSlot (obj raw)) = false ∧
    prop (withSlot (obj raw)) "dish_name" = (lookup raw "dish_name").or (str "Snack") ∧
    prop (withSlot (obj raw)) "image" = (lookup raw "image").or null ∧
    prop (withSlot (obj raw)) "video_link" = (lookup raw "video_link").or null ∧
    prop (withSlot (obj raw)) "macros" = (lookup raw "macros").or (macrosOf 0 0 0) ∧
    prop (withSlot (obj raw)) "ingredients" = arrayOrEmpty (lookup raw "ingredients") ∧
    prop (withSlot (obj raw)) "recipe_steps" = arrayOrEmpty (lookup raw "recipe_steps") :=
  ⟨rfl, rfl, rfl, rfl, rfl, rfl, rfl, rfl⟩

/-- C13: for an error-free response carrying an object meal, or an array whose
first element is one, and no interleaved change, the list after
`recommendSnack` is the old list followed by one new entry: the server's
snack with slot Snack, `_loading` false, `ingredients` and `recipe_steps`
the empty list and `macros` the zero record when the server omits them.  The
entries of the old list keep their positions. -/
theorem recommendSnack_success_appends (st : HomeState) (old : List JSVal) (r : JSVal)
    (raw : List (String × JSVal))
    (hold : st.meals = some old)
    (herr : (prop r "error").truthy = false)
    (hmeal : prop r "meal" = obj raw ∨ ∃ rest, prop r "meal" = arr (obj raw :: rest)) :
    (recommendSnack (.ok r) st).state.meals = some (old ++ [withSlot (obj raw)]) ∧
    (∀ j, j < old.length → (old ++ [withSlot (obj raw)])[j]? = old[j]?) ∧
    (old ++ [withSlot (obj raw)]).length = old.length + 1 ∧
    prop (withSlot (obj raw)) "_slot" = str "Snack" ∧
    isLoading (withSlot (obj raw)) = false ∧
    prop (withSlot (obj raw)) "dish_name" = (lookup raw "dish_name").or (str "Snack") ∧
    prop (withSlot (obj raw)) "image" = (lookup raw "image").or null ∧
    prop (withSlot (obj raw)) "video_link" = (lookup raw "video_link").or null ∧
    (lookup raw "macros" = undefined →
      prop (withSlot (obj raw)) "macros" = macrosOf 0 0 0) ∧
    (∀ fields, lookup raw "macros" = obj fields →
      prop (withSlot (obj raw)) "macros" = obj fields) ∧
    (lookup raw "ingredients" = undefined →
      prop (withSlot (obj raw)) "ingredients" = arr []) ∧
    (∀ xs, lookup raw "ingredients" = arr xs →
      prop (withSlot (obj raw)) "ingredients" = arr xs) ∧
    (lookup raw "recipe_steps" = undefined →
      prop (withSlot (obj raw)) "recipe_steps" = arr []) ∧
    (∀ xs, lookup raw "recipe_steps" = arr xs →
      prop (withSlot (obj raw)) "recipe_steps" = arr xs) ∧
    (recommendSnack (.ok r) st).rejected = false := by
  obtain ⟨hm, hrej, _⟩ := recommendSnack_meals r st
  obtain ⟨f1, f2, f3, f4, f5, f6, f7, f8⟩ := withSlot_fields raw
  refine ⟨?_, ?_, by simp, f1, f2, f3, f4, f5, ?_, ?_, ?_, ?_, ?_, ?_, hrej⟩
  · rw [hm, snackUpdater_success r raw herr hmeal, hold, replaceLast_appendPlaceholder]
  · intro j hj
    exact List.getElem?_append_left hj
  · intro h
    rw [f6, h]
    rfl
  · intro fields h
    rw [f6, h]
    rfl
  · intro h
    rw [f7, h]
    rfl
  · intro xs h
    rw [f7, h]
    rfl
  · intro h
    rw [f8, h]
    rfl
  · intro xs h
    rw [f8, h]
    rfl

theorem recommendSnack_success_appends_witness :
    HomeState.initial.meals = some dummyWithSlots ∧
    (prop (obj [("meal", obj [("dish_name", str "Apple")])]) "error").truthy = false ∧
    (prop (obj [("meal", obj [("dish_name", str "Apple")])]) "meal" =
        obj [("dish_name", str "Apple")] ∨
      ∃ rest, prop (obj [("meal", obj [("dish_name", str "Apple")])]) "meal" =
        arr (obj [("dish_name", str "Apple")] :: rest)) ∧
    (recommendSnack (.ok (obj [("meal", obj [("dish_name", str "Apple")])]))
      HomeState.initial).state.meals =
      some (dummyWithSlots ++ [withSlot (obj [("dish_name", str "Apple")])]) :=
  ⟨rfl, rfl, Or.inl rfl,
   (recommendSnack_success_appends HomeState.initial dummyWithSlots
     (obj [("meal", obj [("dish_name", str "Apple")])]) [("dish_name", str "Apple")]
     rfl rfl (Or.inl rfl)).1⟩

/-! ## Daily totals -/

theorem macroOr0_of_hasGrams (m : List (String × JSVal)) (k : String) (q : ℚ)
    (h : HasGrams m k q) : macroOr0 m k = num q := by
  unfold macroOr0
  rcases h with h | ⟨h, rfl⟩
  · rw [h]
    by_cases hq : q = 0
    · subst hq
      simp [JSVal.or, truthy]
    · simp [JSVal.or, truthy, hq]
  · rw [h]
    rfl

theorem plus_num (other : JSVal → JSVal → JSVal) (a b : ℚ)
    (h : |round64 (a + b)| < 2 ^ 1024) : plus other (num a) (num b) = num (round64 (a + b)) := by
  unfold plus
  simp only [h, if_true]

theorem round64_add_int (a b : ℤ) (h : |a + b| < 2 ^ 53) :
    round64 ((a : ℚ) + (b : ℚ)) = ((a + b : ℤ) : ℚ) := by
  have := round64_intCast (a + b) h
  rw [← this]
  push_cast
  rfl

theorem addMacros_numeric (other : JSVal → JSVal → JSVal) (m : List (String × JSVal))
    (t : JSVal) (tp tc tf p c f : ℚ)
    (htp : prop t "protein" = num tp) (htc : prop t "carbs" = num tc)
    (htf : prop t "fat" = num tf)
    (hp : HasGrams m "protein" p) (hc : HasGrams m "carbs" c) (hf : HasGrams m "fat" f)
    (hfin : |round64 (tp + p)| < 2 ^ 1024 ∧ |round64 (tc + c)| < 2 ^ 1024 ∧
      |round64 (tf + f)| < 2 ^ 1024) :
    addMacros other m t =
      obj [("protein", num (round64 (tp + p))), ("carbs", num (round64 (tc + c))),
        ("fat", num (round64 (tf + f)))] := by
  unfold addMacros
  rw [htp, htc, htf, macroOr0_of_hasGrams m _ p hp, macroOr0_of_hasGrams m _ c hc,
    macroOr0_of_hasGrams m _ f hf, plus_num other tp p hfin.1, plus_num other tc c hfin.2.1,
    plus_num other tf f hfin.2.2]

theorem onEaten_state (other : JSVal → JSVal → JSVal) (m : List (String × JSVal))
    (st : HomeState) :
    (∀ r, (prop r "totals").truthy = true →
      onEaten other m (.ok r) st =
        { state := { st with totals := prop r "totals" },
          log := [Event.post "/meals/log_eaten" (obj m)], rejected := false }) ∧
    (∀ r, (prop r "totals").truthy = false →
      onEaten other m (.ok r) st =
        { state := { st with totals := addMacros other m st.totals },
          log := [Event.post "/meals/log_eaten" (obj m)], rejected := false }) ∧
    (∀ e, onEaten other m (.error e) st =
        { state := { st with totals := addMacros other m st.totals },
          log := [Event.post "/meals/log_eaten" (obj m)], rejected := true }) := by
  refine ⟨?_, ?_, fun _ => rfl⟩
  · intro r h
    simp [onEaten, h]
  · intro r h
    simp [onEaten, h]

/-- C14, as the code has it: after `onEaten(m)` the totals are the totals the
server reported when the log response carries a (truthy) `totals`, and
otherwise, also when the request throws, componentwise the binary64 sum of
the prior total and the protein, carbs and fat of `m` (the sums being finite
numbers), an absent macros record or macro field counting as 0.  The binary64
sum of two integers is their exact sum when that is below `2 ^ 53`. -/
theorem onEaten_totals (other : JSVal → JSVal → JSVal) (m : List (String × JSVal))
    (st : HomeState) (tp tc tf p c f : ℚ)
    (htp : prop st.totals "protein" = num tp) (htc : prop st.totals "carbs" = num tc)
    (htf : prop st.totals "fat" = num tf)
    (hp : HasGrams m "protein" p) (hc : HasGrams m "carbs" c) (hf : HasGrams m "fat" f)
    (hfin : |round64 (tp + p)| < 2 ^ 1024 ∧ |round64 (tc + c)| < 2 ^ 1024 ∧
      |round64 (tf + f)| < 2 ^ 1024) :
    (∀ r, (prop r "totals").truthy = true →
      (onEaten other m (.ok r) st).state.totals = prop r "totals") ∧
    (∀ r, (prop r "totals").truthy = false →
      (onEaten other m (.ok r) st).state.totals =
        obj [("protein", num (round64 (tp + p))), ("carbs", num (round64 (tc + c))),
          ("fat", num (round64 (tf + f)))]) ∧
    (∀ e, (onEaten other m (.error e) st).state.totals =
        obj [("protein", num (round64 (tp + p))), ("carbs", num (round64 (tc + c))),
          ("fat", num (round64 (tf + f)))]) ∧
    (∀ resp, (onEaten other m resp st).log = [Event.post "/meals/log_eaten" (obj m)] ∧
      (onEaten other m resp st).state.meals = st.meals) ∧
    (∀ a b : ℤ, |a + b| < 2 ^ 53 → round64 ((a : ℚ) + (b : ℚ)) = ((a + b : ℤ) : ℚ)) := by
  obtain ⟨h1, h2, h3⟩ := onEaten_state other m st
  have hsum := addMacros_numeric other m st.totals tp tc tf p c f htp htc htf hp hc hf hfin
  refine ⟨?_, ?_, ?_, ?_, round64_add_int⟩
  · intro r h
    rw [h1 r h]
  · intro r h
    rw [h2 r h, ← hsum]
  · intro e
    rw [h3 e, ← hsum]
  · intro resp
    cases resp with
    | error e => rw [h3 e]; exact ⟨rfl, rfl⟩
    | ok r =>
      cases h : (prop r "totals").truthy with
      | true => rw [h1 r h]; exact ⟨rfl, rfl⟩
      | false => rw [h2 r h]; exact ⟨rfl, rfl⟩

theorem round64_gram_sums :
    round64 (0 + 42) = 42 ∧ round64 (0 + 48) = 48 ∧ round64 (0 + 12) = 12 ∧
    round64 (0 + 0) = 0 := by
  have h1 := round64_add_int 0 42 (by norm_num)
  have h2 := round64_add_int 0 48 (by norm_num)
  have h3 := round64_add_int 0 12 (by norm_num)
  have h4 := round64_add_int 0 0 (by norm_num)
  push_cast at h1 h2 h3 h4
  exact ⟨h1, h2, h3, h4⟩

theorem onEaten_totals_witness :
    prop HomeState.initial.totals "protein" = num 0 ∧
    prop HomeState.initial.totals "carbs" = num 0 ∧
    prop HomeState.initial.totals "fat" = num 0 ∧
    HasGrams [("dish_name", str "Dal"), ("macros", macrosOf 42 48 12)] "protein" 42 ∧
    HasGrams [("dish_name", str "Dal"), ("macros", macrosOf 42 48 12)] "carbs" 48 ∧
    HasGrams [("dish_name", str "Dal"), ("macros", macrosOf 42 48 12)] "fat" 12 ∧
    (|round64 (0 + 42)| < 2 ^ 1024 ∧ |round64 (0 + 48)| < 2 ^ 1024 ∧
      |round64 (0 + 12)| < 2 ^ 1024) ∧
    (onEaten (fun _ _ => undefined) [("dish_name", str "Dal"), ("macros", macrosOf 42 48 12)]
        (.ok (obj [])) HomeState.initial).state.totals =
      obj [("protein", num 42), ("carbs", num 48), ("fat", num 12)] := by
  obtain ⟨r42, r48, r12, _⟩ := round64_gram_sums
  have hfin : |round64 (0 + 42)| < 2 ^ 1024 ∧ |round64 (0 + 48)| < 2 ^ 1024 ∧
      |round64 (0 + 12)| < 2 ^ 1024 := by
    rw [r42, r48, r12]
    norm_num [abs_of_pos]
  refine ⟨rfl, rfl, rfl, Or.inl rfl, Or.inl rfl, Or.inl rfl, hfin, ?_⟩
  rw [(onEaten_totals (fun _ _ => undefined)
    [("dish_name", str "Dal"), ("macros", macrosOf 42 48 12)]
    HomeState.initial 0 0 0 42 48 12 rfl rfl rfl (Or.inl rfl) (Or.inl rfl) (Or.inl rfl)
    hfin).2.1 (obj []) rfl, r42, r48, r12]

theorem round64_tenth_plus_fifth :
    round64 ((3602879701896397 / 36028797018963968 : ℚ) + 3602879701896397 / 18014398509481984) =
      1351079888211149 / 4503599627370496 := by
  rw [round64_eval _ (-2) (by norm_num) (by norm_num [abs_of_pos]) (by norm_num [abs_of_pos])]
  norm_num [roundTiesEven]

/-- C14, as the claim states it, fails: with a protein total of 0.1 and a meal
of 0.2 g protein (the binary64 numbers written so) and a log response without
totals, the protein total becomes 0.30000000000000004, which is not the sum
of the two. -/
theorem onEaten_sum_is_rounded :
    (∀ other : JSVal → JSVal → JSVal,
      (onEaten other
        [("macros", macrosOf (3602879701896397 / 18014398509481984) 0 0)]
        (.ok (obj []))
        { HomeState.initial with
          totals := obj [("protein", num (3602879701896397 / 36028797018963968)),
            ("carbs", num 0), ("fat", num 0)] }).state.totals =
        obj [("protein", num (1351079888211149 / 4503599627370496)), ("carbs", num 0),
          ("fat", num 0)]) ∧
    (1351079888211149 / 4503599627370496 : ℚ) ≠
      3602879701896397 / 36028797018963968 + 3602879701896397 / 18014398509481984 := by
  obtain ⟨_, _, _, r0⟩ := round64_gram_sums
  refine ⟨?_, by norm_num⟩
  intro other
  have hfin : |round64 ((3602879701896397 / 36028797018963968 : ℚ) +
        3602879701896397 / 18014398509481984)| < 2 ^ 1024 ∧
      |round64 ((0 : ℚ) + 0)| < 2 ^ 1024 ∧ |round64 ((0 : ℚ) + 0)| < 2 ^ 1024 := by
    rw [round64_tenth_plus_fifth, r0]
    norm_num [abs_of_pos]
  have hsum := addMacros_numeric other
    [("macros", macrosOf (3602879701896397 / 18014398509481984) 0 0)]
    (obj [("protein", num (3602879701896397 / 36028797018963968)), ("carbs", num 0),
      ("fat", num 0)])
    (3602879701896397 / 36028797018963968) 0 0 (3602879701896397 / 18014398509481984) 0 0
    rfl rfl rfl (Or.inl rfl) (Or.inl rfl) (Or.inl rfl) hfin
  rw [round64_tenth_plus_fifth, r0] at hsum
  rw [(onEaten_state other _ _).2.1 (obj []) rfl]
  exact hsum

theorem toggleEaten_on (other : JSVal → JSVal → JSVal) (idx : Nat)
    (resp : Except String JSVal) (st : HomeState) (old : List JSVal)
    (fields : List (String × JSVal))
    (hold : st.meals = some old) (hidx : idx < old.length) (hobj : index old idx = obj fields)
    (hflag : isEaten (obj fields) = false) :
    toggleEaten other idx resp st =
      onEaten other (setField fields "_eaten" (bool true)) resp
        { st with meals := some (old.set idx (obj (setField fields "_eaten" (bool true)))) } := by
  have hf : (lookup fields "_eaten").truthy = false := hflag
  have ht : (obj fields).truthy = true := rfl
  unfold toggleEaten
  rw [hold]
  simp only [hobj, JSVal.or, ht, if_true, spread, hf, Bool.not_false, setIndex_of_lt _ _ _ hidx]

theorem toggleEaten_off (other : JSVal → JSVal → JSVal) (idx : Nat)
    (resp : Except String JSVal) (st : HomeState) (old : List JSVal)
    (fields : List (String × JSVal))
    (hold : st.meals = some old) (hidx : idx < old.length) (hobj : index old idx = obj fields)
    (hflag : isEaten (obj fields) = true) :
    toggleEaten other idx resp st =
      { state :=
          { st with meals := some (old.set idx (obj (setField fields "_eaten" (bool false)))) },
        log := [], rejected := false } := by
  have hf : (lookup fields "_eaten").truthy = true := hflag
  have ht : (obj fields).truthy = true := rfl
  unfold toggleEaten
  rw [hold]
  simp [hobj, JSVal.or, ht, spread, hf, setIndex_of_lt _ _ _ hidx]

theorem macros_setField_eaten (fields : List (String × JSVal)) (v : JSVal) (k : String)
    (q : ℚ) (h : HasGrams fields k q) : HasGrams (setField fields "_eaten" v) k q := by
  unfold HasGrams at h ⊢
  rw [lookup_setField_other fields "_eaten" "macros" v (by decide)]
  exact h

theorem onEaten_frame (other : JSVal → JSVal → JSVal) (m : List (String × JSVal))
    (resp : Except String JSVal) (st : HomeState) :
    (onEaten other m resp st).state.meals = st.meals ∧
    (onEaten other m resp st).log = [Event.post "/meals/log_eaten" (obj m)] ∧
    (∀ st2 : HomeState, st2.totals = st.totals →
      (onEaten other m resp st2).state.totals = (onEaten other m resp st).state.totals) := by
  obtain ⟨h1, h2, h3⟩ := onEaten_state other m st
  cases resp with
  | error e =>
    rw [h3 e]
    refine ⟨rfl, rfl, ?_⟩
    intro st2 ht
    rw [(onEaten_state other m st2).2.2 e, ht]
  | ok r =>
    cases h : (prop r "totals").truthy with
    | true =>
      rw [h1 r h]
      refine ⟨rfl, rfl, ?_⟩
      intro st2 _
      rw [(onEaten_state other m st2).1 r h]
    | false =>
      rw [h2 r h]
      refine ⟨rfl, rfl, ?_⟩
      intro st2 ht
      rw [(onEaten_state other m st2).2.1 r h, ht]

theorem index_set_same (old : List JSVal) (idx : Nat) (v : JSVal) (h : idx < old.length) :
    index (old.set idx v) idx = v := by
  simp [index, List.getD, h]

/-- C18, as the code has it: on a meal object at an index in range,
`toggleEaten(idx)` changes only the `_eaten` flag of that entry.  When the
flag goes from unset to set the totals become those of `onEaten`: without
server totals each is the binary64 sum of the prior total and the macro of
the meal (the sums being finite numbers), and one log request is sent; when
it goes from set to unset the totals stay and nothing is sent.  Toggling
twice from unset gives the flag back and leaves the totals as the first
toggle made them. -/
theorem toggleEaten_flips_and_never_subtracts (other : JSVal → JSVal → JSVal) (idx : Nat)
    (st : HomeState) (old : List JSVal) (fields : List (String × JSVal))
    (hold : st.meals = some old) (hidx : idx < old.length)
    (hobj : index old idx = obj fields) :
    (∀ resp,
      (toggleEaten other idx resp st).state.meals =
        some (old.set idx (obj (setField fields "_eaten" (bool (!isEaten (obj fields)))))) ∧
      (old.set idx (obj (setField fields "_eaten" (bool (!isEaten (obj fields)))))).length
        = old.length ∧
      isEaten (obj (setField fields "_eaten" (bool (!isEaten (obj fields))))) =
        !isEaten (obj fields) ∧
      (∀ k, k ≠ "_eaten" →
        lookup (setField fields "_eaten" (bool (!isEaten (obj fields)))) k = lookup fields k) ∧
      (∀ j, j ≠ idx →
        (old.set idx (obj (setField fields "_eaten" (bool (!isEaten (obj fields))))))[j]?
          = old[j]?)) ∧
    (isEaten (obj fields) = false → ∀ resp,
      (toggleEaten other idx resp st).log =
        [Event.post "/meals/log_eaten" (obj (setField fields "_eaten" (bool true)))] ∧
      (toggleEaten other idx resp st).state.totals =
        (onEaten other (setField fields "_eaten" (bool true)) resp st).state.totals ∧
      (∀ tp tc tf p c f : ℚ,
        prop st.totals "protein" = num tp → prop st.totals "carbs" = num tc →
        prop st.totals "fat" = num tf →
        HasGrams fields "protein" p → HasGrams fields "carbs" c → HasGrams fields "fat" f →
        (|round64 (tp + p)| < 2 ^ 1024 ∧ |round64 (tc + c)| < 2 ^ 1024 ∧
          |round64 (tf + f)| < 2 ^ 1024) →
        (∀ r, resp = .ok r → (prop r "totals").truthy = false) →
        (toggleEaten other idx resp st).state.totals =
          obj [("protein", num (round64 (tp + p))), ("carbs", num (round64 (tc + c))),
            ("fat", num (round64 (tf + f)))])) ∧
    (isEaten (obj fields) = true → ∀ resp,
      (toggleEaten other idx resp st).log = [] ∧
      (toggleEaten other idx resp st).state.totals = st.totals) ∧
    (isEaten (obj fields) = false → ∀ resp1 resp2,
      (toggleEaten other idx resp2 (toggleEaten other idx resp1 st).state).log = [] ∧
      (toggleEaten other idx resp2 (toggleEaten other idx resp1 st).state).state.totals =
        (toggleEaten other idx resp1 st).state.totals ∧
      ∃ now, (toggleEaten other idx resp2 (toggleEaten other idx resp1 st).state).state.meals
          = some now ∧
        now.length = old.length ∧
        isEaten (index now idx) = isEaten (obj fields) ∧
        (∀ j, j ≠ idx → now[j]? = old[j]?)) := by
  have hon := toggleEaten_on other idx
  have hoff := toggleEaten_off other idx
  refine ⟨?_, ?_, ?_, ?_⟩
  · intro resp
    refine ⟨?_, by simp, ?_, ?_, ?_⟩
    · cases hflag : isEaten (obj fields) with
      | false =>
        rw [hon resp st old fields hold hidx hobj hflag]
        exact (onEaten_frame other _ resp _).1
      | true =>
        rw [hoff resp st old fields hold hidx hobj hflag]
        rfl
    · simp [isEaten, JSVal.prop, lookup_setField_same, truthy]
    · intro k hk
      exact lookup_setField_other fields "_eaten" k _ hk
    · intro j hj
      simp [List.getElem?_set, Ne.symm hj]
  · intro hflag resp
    rw [hon resp st old fields hold hidx hobj hflag]
    obtain ⟨_, hlog, htot⟩ := onEaten_frame other (setField fields "_eaten" (bool true)) resp st
    refine ⟨(onEaten_frame other _ resp _).2.1, ?_, ?_⟩
    · exact htot _ rfl
    · intro tp tc tf p c f htp htc htf hp hc hf hfin hresp
      rw [htot { st with
        meals := some (old.set idx (obj (setField fields "_eaten" (bool true)))) } rfl]
      have hsum := addMacros_numeric other (setField fields "_eaten" (bool true)) st.totals
        tp tc tf p c f htp htc htf
        (macros_setField_eaten fields _ _ p hp) (macros_setField_eaten fields _ _ c hc)
        (macros_setField_eaten fields _ _ f hf) hfin
      obtain ⟨_, h2, h3⟩ := onEaten_state other (setField fields "_eaten" (bool true)) st
      cases resp with
      | error e => rw [h3 e, ← hsum]
      | ok r => rw [h2 r (hresp r rfl), ← hsum]
  · intro hflag resp
    rw [hoff resp st old fields hold hidx hobj hflag]
    exact ⟨rfl, rfl⟩
  · intro hflag resp1 resp2
    have hmeals1 : (toggleEaten other idx resp1 st).state.meals =
        some (old.set idx (obj (setField fields "_eaten" (bool true)))) := by
      rw [hon resp1 st old fields hold hidx hobj hflag]
      exact (onEaten_frame other _ resp1 _).1
    have hlen1 : idx < (old.set idx (obj (setField fields "_eaten" (bool true)))).length := by
      simpa using hidx
    have hflag1 : isEaten (obj (setField fields "_eaten" (bool true))) = true := by
      simp [isEaten, JSVal.prop, lookup_setField_same, truthy]
    rw [hoff resp2 _ _ (setField fields "_eaten" (bool true)) hmeals1 hlen1
      (index_set_same old idx _ hidx) hflag1]
    refine ⟨rfl, rfl, _, rfl, by simp, ?_, ?_⟩
    · rw [index_set_same _ idx _ hlen1, hflag]
      simp [isEaten, JSVal.prop, lookup_setField_same, truthy]
    · intro j hj
      simp [List.getElem?_set, Ne.symm hj]

theorem toggleEaten_flips_and_never_subtracts_witness :
    (⟨some [obj [("dish_name", str "Dal"), ("macros", macrosOf 42 48 12)]], false, null,
        obj [("protein", num 0), ("carbs", num 0), ("fat", num 0)]⟩ : HomeState).meals =
      some [obj [("dish_name", str "Dal"), ("macros", macrosOf 42 48 12)]] ∧
    0 < [obj [("dish_name", str "Dal"), ("macros", macrosOf 42 48 12)]].length ∧
    index [obj [("dish_name", str "Dal"), ("macros", macrosOf 42 48 12)]] 0 =
      obj [("dish_name", str "Dal"), ("macros", macrosOf 42 48 12)] ∧
    (toggleEaten (fun _ _ => undefined) 0 (.ok (obj []))
        ⟨some [obj [("dish_name", str "Dal"), ("macros", macrosOf 42 48 12)]], false, null,
          obj [("protein", num 0), ("carbs", num 0), ("fat", num 0)]⟩).log =
      [Event.post "/meals/log_eaten"
        (obj (setField [("dish_name", str "Dal"), ("macros", macrosOf 42 48 12)] "_eaten"
          (bool true)))] :=
  ⟨rfl, by decide, rfl,
   ((toggleEaten_flips_and_never_subtracts (fun _ _ => undefined) 0
      ⟨some [obj [("dish_name", str "Dal"), ("macros", macrosOf 42 48 12)]], false, null,
        obj [("protein", num 0), ("carbs", num 0), ("fat", num 0)]⟩
      [obj [("dish_name", str "Dal"), ("macros", macrosOf 42 48 12)]]
      [("dish_name", str "Dal"), ("macros", macrosOf 42 48 12)]
      rfl (by decide) rfl).2.1 rfl (.ok (obj []))).1⟩

/-- C18, as the claim states it, fails: with a protein total of 0.1 and a meal
of 0.2 g protein (the binary64 numbers written so), ticking the meal makes the
protein total 0.30000000000000004, an increase that is not the macro of the
meal. -/
theorem toggleEaten_increase_is_rounded :
    (∀ other : JSVal → JSVal → JSVal,
      (toggleEaten other 0 (.ok (obj []))
        ⟨some [obj [("macros", macrosOf (3602879701896397 / 18014398509481984) 0 0)]], false,
          null,
          obj [("protein", num (3602879701896397 / 36028797018963968)), ("carbs", num 0),
            ("fat", num 0)]⟩).state.totals =
        obj [("protein", num (1351079888211149 / 4503599627370496)), ("carbs", num 0),
          ("fat", num 0)]) ∧
    (1351079888211149 / 4503599627370496 : ℚ) - 3602879701896397 / 36028797018963968 ≠
      3602879701896397 / 18014398509481984 := by
  obtain ⟨_, _, _, r0⟩ := round64_gram_sums
  refine ⟨?_, by norm_num⟩
  intro other
  have hfin : |round64 ((3602879701896397 / 36028797018963968 : ℚ) +
        3602879701896397 / 18014398509481984)| < 2 ^ 1024 ∧
      |round64 ((0 : ℚ) + 0)| < 2 ^ 1024 ∧ |round64 ((0 : ℚ) + 0)| < 2 ^ 1024 := by
    rw [round64_tenth_plus_fifth, r0]
    norm_num [abs_of_pos]
  have hsum := addMacros_numeric other
    (setField [("macros", macrosOf (3602879701896397 / 18014398509481984) 0 0)] "_eaten"
      (bool true))
    (obj [("protein", num (3602879701896397 / 36028797018963968)), ("carbs", num 0),
      ("fat", num 0)])
    (3602879701896397 / 36028797018963968) 0 0 (3602879701896397 / 18014398509481984) 0 0
    rfl rfl rfl (Or.inl rfl) (Or.inl rfl) (Or.inl rfl) hfin
  rw [round64_tenth_plus_fifth, r0] at hsum
  rw [toggleEaten_on other 0 (.ok (obj [])) _
    [obj [("macros", macrosOf (3602879701896397 / 18014398509481984) 0 0)]]
    [("macros", macrosOf (3602879701896397 / 18014398509481984) 0 0)] rfl (by decide) rfl rfl,
    (onEaten_state other _ _).2.1 (obj []) rfl]
  exact hsum

/-! ## Profile lists -/

theorem split_ne_nil (sep : Char) (cs : List Char) : split sep cs ≠ [] := by
  cases cs with
  | nil => simp [split]
  | cons c cs =>
    unfold split
    split <;> simp

theorem split_head_tail (sep : Char) (cs : List Char) :
    (split sep cs).headD [] :: (split sep cs).tail = split sep cs := by
  cases h : split sep cs with
  | nil => exact absurd h (split_ne_nil sep cs)
  | cons x xs => rfl

theorem joinWith_cons (sep : Char) (x : List Char) (rest : List (List Char))
    (h : rest ≠ []) : joinWith sep (x :: rest) = x ++ sep :: joinWith sep rest := by
  cases rest with
  | nil => exact absurd rfl h
  | cons y ys => rfl

theorem joinWith_cons_head (sep c : Char) (x : List Char) (rest : List (List Char)) :
    joinWith sep ((c :: x) :: rest) = c :: joinWith sep (x :: rest) := by
  cases rest with
  | nil => rfl
  | cons y ys => rfl

theorem joinWith_split (sep : Char) (cs : List Char) : joinWith sep (split sep cs) = cs := by
  induction cs with
  | nil => rfl
  | cons c cs ih =>
    unfold split
    by_cases h : c = sep
    · simp only [h, if_true]
      rw [joinWith_cons sep [] _ (split_ne_nil sep cs), ih]
      rfl
    · simp only [h, if_false]
      rw [joinWith_cons_head, split_head_tail, ih]

theorem not_mem_of_mem_split (sep : Char) (cs : List Char) :
    ∀ seg ∈ split sep cs, sep ∉ seg := by
  induction cs with
  | nil =>
    intro seg hseg
    simp only [split, List.mem_singleton] at hseg
    rw [hseg]
    simp
  | cons c cs ih =>
    intro seg hseg
    unfold split at hseg
    by_cases h : c = sep
    · simp only [h, if_true, List.mem_cons] at hseg
      rcases hseg with rfl | hseg
      · simp
      · exact ih seg hseg
    · simp only [h, if_false, List.mem_cons] at hseg
      rcases hseg with rfl | hseg
      · have hhead : (split sep cs).headD [] ∈ split sep cs := by
          rw [← split_head_tail sep cs]
          simp
        intro hmem
        rcases List.mem_cons.mp hmem with heq | hin
        · exact h heq.symm
        · exact ih _ hhead hin
      · exact ih seg (List.mem_of_mem_tail hseg)

theorem split_cons_sep (sep : Char) (cs : List Char) :
    split sep (sep :: cs) = [] :: split sep cs := by
  rw [split]
  simp only [if_true]

theorem split_cons_other (sep c : Char) (cs : List Char) (h : c ≠ sep) :
    split sep (c :: cs) = (c :: (split sep cs).headD []) :: (split sep cs).tail := by
  rw [split]
  simp only [h, if_false]

theorem split_of_not_mem (sep : Char) (x : List Char) (h : sep ∉ x) : split sep x = [x] := by
  induction x with
  | nil => rfl
  | cons c x ih =>
    have hc : c ≠ sep := fun hc => h (by rw [hc]; simp)
    have hx : sep ∉ x := fun hx => h (List.mem_cons_of_mem _ hx)
    rw [split_cons_other sep c x hc, ih hx]
    rfl

theorem split_append_sep (sep : Char) (x tl : List Char) (h : sep ∉ x) :
    split sep (x ++ sep :: tl) = x :: split sep tl := by
  induction x with
  | nil => exact split_cons_sep sep tl
  | cons c x ih =>
    have hc : c ≠ sep := fun hc => h (by rw [hc]; simp)
    have hx : sep ∉ x := fun hx => h (List.mem_cons_of_mem _ hx)
    show split sep (c :: (x ++ sep :: tl)) = (c :: x) :: split sep tl
    rw [split_cons_other sep c _ hc, ih hx]
    rfl

theorem split_joinWith (sep : Char) (segs : List (List Char)) (hne : segs ≠ [])
    (h : ∀ seg ∈ segs, sep ∉ seg) : split sep (joinWith sep segs) = segs := by
  induction segs with
  | nil => exact absurd rfl hne
  | cons x rest ih =>
    cases rest with
    | nil => exact split_of_not_mem sep x (h x (by simp))
    | cons y ys =>
      show split sep (x ++ sep :: joinWith sep (y :: ys)) = x :: y :: ys
      rw [split_append_sep sep x _ (h x (by simp)),
        ih (by simp) (fun seg hseg => h seg (List.mem_cons_of_mem _ hseg))]

theorem rdropWhile_append_rtakeWhile (p : Char → Bool) (l : List Char) :
    l.rdropWhile p ++ l.rtakeWhile p = l := by
  unfold List.rdropWhile List.rtakeWhile
  rw [← List.reverse_append, List.takeWhile_append_dropWhile, List.reverse_reverse]

theorem trim_decompose (s : List Char) :
    ∃ pre post, s = pre ++ trim s ++ post ∧
      (∀ c ∈ pre, isWhiteSpace c = true) ∧ (∀ c ∈ post, isWhiteSpace c = true) := by
  refine ⟨s.takeWhile isWhiteSpace, (s.dropWhile isWhiteSpace).rtakeWhile isWhiteSpace, ?_, ?_, ?_⟩
  · unfold trim
    rw [List.append_assoc, rdropWhile_append_rtakeWhile, List.takeWhile_append_dropWhile]
  · intro c hc
    exact List.mem_takeWhile_imp hc
  · intro c hc
    exact List.mem_rtakeWhile_imp hc

theorem trim_last (s : List Char) (c : Char) (h : (trim s).getLast? = some c) :
    isWhiteSpace c = false := by
  have hne : trim s ≠ [] := by
    intro hnil
    rw [hnil] at h
    cases h
  have hnot := List.rdropWhile_last_not isWhiteSpace (s.dropWhile isWhiteSpace) hne
  rw [List.getLast?_eq_getLast _ hne] at h
  have hc : (trim s).getLast hne = c := Option.some.inj h
  have hc2 : ¬ isWhiteSpace c = true := by
    rw [← hc]
    exact hnot
  simpa using hc2

theorem trim_head (s : List Char) (c : Char) (h : (trim s).head? = some c) :
    isWhiteSpace c = false := by
  have hpre : trim s <+: s.dropWhile isWhiteSpace := List.rdropWhile_prefix _ _
  obtain ⟨t, ht⟩ := hpre
  have hhead : (s.dropWhile isWhiteSpace).head? = some c := by
    rw [← ht]
    cases htrim : trim s with
    | nil => rw [htrim] at h; cases h
    | cons a as =>
      rw [htrim] at h
      simpa using h
  have hnot := List.head?_dropWhile_not isWhiteSpace s
  rw [hhead] at hnot
  exact hnot

theorem mem_of_mem_trim (s : List Char) (c : Char) (h : c ∈ trim s) : c ∈ s := by
  obtain ⟨pre, post, hs, _, _⟩ := trim_decompose s
  rw [hs]
  simp [h]

theorem mem_of_mem_split (sep : Char) (cs : List Char) :
    ∀ seg ∈ split sep cs, ∀ c ∈ seg, c ∈ cs := by
  induction cs with
  | nil =>
    intro seg hseg c hc
    simp only [split, List.mem_singleton] at hseg
    rw [hseg] at hc
    exact hc
  | cons a cs ih =>
    intro seg hseg c hc
    by_cases h : a = sep
    · rw [h, split_cons_sep] at hseg
      rcases List.mem_cons.mp hseg with rfl | hseg
      · cases hc
      · exact List.mem_cons_of_mem _ (ih seg hseg c hc)
    · rw [split_cons_other sep a cs h] at hseg
      have hhead : (split sep cs).headD [] ∈ split sep cs := by
        rw [← split_head_tail sep cs]
        simp
      rcases List.mem_cons.mp hseg with rfl | hseg
      · rcases List.mem_cons.mp hc with rfl | hc
        · simp
        · exact List.mem_cons_of_mem _ (ih _ hhead c hc)
      · exact List.mem_cons_of_mem _ (ih seg (List.mem_of_mem_tail hseg) c hc)

theorem trim_eq_nil (s : List Char) (h : ∀ c ∈ s, isWhiteSpace c = true) : trim s = [] := by
  unfold trim
  have hd : s.dropWhile isWhiteSpace = [] := by
    rw [List.dropWhile_eq_nil_iff]
    exact h
  rw [hd]
  rfl

theorem splitList_eq (text : String) :
    splitList text =
      (((split ',' text.toList).map trim).filter (fun s => !s.isEmpty)).map String.mk := by
  unfold splitList
  by_cases h : text = ""
  · simp only [h, if_true]
    rfl
  · simp only [h, if_false]

theorem mem_splitList (text : String) (s : String) (h : s ∈ splitList text) :
    ∃ seg ∈ split ',' text.toList, s.toList = trim seg ∧ trim seg ≠ [] := by
  rw [splitList_eq] at h
  obtain ⟨cs, hcs, rfl⟩ := List.mem_map.mp h
  obtain ⟨hmem, hne⟩ := List.mem_filter.mp hcs
  obtain ⟨seg, hseg, rfl⟩ := List.mem_map.mp hmem
  refine ⟨seg, hseg, rfl, ?_⟩
  intro hnil
  rw [hnil] at hne
  simp at hne

/-- C15: the array `save` submits for a restrictions or allergies text is the
sequence of its comma-separated segments, each trimmed, with the blank ones
dropped, in their order.  The segments are the one way to cut the text at its
commas; trimming removes white space at both ends and leaves none there.  So
the array holds no empty string, no element that starts or ends with white
space and no element with a comma; it is empty for an empty or blank text, and
`" a, ,b ,"` gives `["a", "b"]`. -/
theorem splitList_spec (text : String) :
    splitList text =
      (((split ',' text.toList).map trim).filter (fun s => !s.isEmpty)).map String.mk ∧
    joinWith ',' (split ',' text.toList) = text.toList ∧
    (∀ seg ∈ split ',' text.toList, ',' ∉ seg) ∧
    (∀ segs : List (List Char), segs ≠ [] → (∀ seg ∈ segs, ',' ∉ seg) →
      joinWith ',' segs = text.toList → segs = split ',' text.toList) ∧
    (∀ seg : List Char, ∃ pre post, seg = pre ++ trim seg ++ post ∧
      (∀ c ∈ pre, isWhiteSpace c = true) ∧ (∀ c ∈ post, isWhiteSpace c = true)) ∧
    (∀ s ∈ splitList text,
      s ≠ "" ∧
      (∀ c, s.toList.head? = some c → isWhiteSpace c = false) ∧
      (∀ c, s.toList.getLast? = some c → isWhiteSpace c = false) ∧
      ',' ∉ s.toList) ∧
    ((∀ c ∈ text.toList, isWhiteSpace c = true ∨ c = ',') → splitList text = []) ∧
    splitList "" = [] ∧
    splitList " a, ,b ," = ["a", "b"] := by
  refine ⟨splitList_eq text, joinWith_split _ _, not_mem_of_mem_split _ _, ?_, trim_decompose,
    ?_, ?_, rfl, by decide⟩
  · intro segs hne hno hjoin
    rw [← hjoin, split_joinWith ',' segs hne hno]
  · intro s hs
    obtain ⟨seg, hseg, hlist, hne⟩ := mem_splitList text s hs
    refine ⟨?_, ?_, ?_, ?_⟩
    · intro hempty
      rw [hempty] at hlist
      exact hne hlist.symm
    · intro c hc
      rw [hlist] at hc
      exact trim_head seg c hc
    · intro c hc
      rw [hlist] at hc
      exact trim_last seg c hc
    · rw [hlist]
      intro hmem
      exact not_mem_of_mem_split ',' text.toList seg hseg (mem_of_mem_trim seg ',' hmem)
  · intro hblank
    rw [splitList_eq]
    have hall : ∀ cs ∈ (split ',' text.toList).map trim, cs = [] := by
      intro cs hcs
      obtain ⟨seg, hseg, rfl⟩ := List.mem_map.mp hcs
      apply trim_eq_nil
      intro c hc
      rcases hblank c (mem_of_mem_split ',' text.toList seg hseg c hc) with hw | hcomma
      · exact hw
      · rw [hcomma] at hc
        exact absurd hc (not_mem_of_mem_split ',' text.toList seg hseg)
    have hfilter : ((split ',' text.toList).map trim).filter (fun s => !s.isEmpty) = [] := by
      rw [List.filter_eq_nil_iff]
      intro cs hcs
      rw [hall cs hcs]
      simp
    rw [hfilter]
    rfl

/-! ## Pantry edits -/

theorem updateQty_out_of_range (items : List PantryItem) (i : Nat) (val : String)
    (h : items.length ≤ i) : updateQty items i val = .error "TypeError" := by
  unfold updateQty
  rw [List.get?_eq_none.mpr h]

/-- C16: for an index in range, `updateQty(i, val)` gives a list of the same
length in which item `i` has quantity `val` and its name, and every other
item is as before. -/
theorem updateQty_frame (items : List PantryItem) (i : Nat) (val : String)
    (h : i < items.length) :
    ∃ now, updateQty items i val = .ok now ∧
      now.length = items.length ∧
      (∀ item, items[i]? = some item →
        now[i]? = some { name := item.name, quantity := str val }) ∧
      (∀ j, j ≠ i → now[j]? = items[j]?) := by
  have hget : items.get? i = some (items.get ⟨i, h⟩) := List.get?_eq_get h
  refine ⟨items.set i { items.get ⟨i, h⟩ with quantity := str val }, ?_, ?_, ?_, ?_⟩
  · unfold updateQty
    rw [hget]
  · simp
  · intro item hitem
    have hsame : items.get ⟨i, h⟩ = item := by
      have h2 : items[i]? = some (items.get ⟨i, h⟩) := by
        rw [← List.get?_eq_getElem?]
        exact hget
      rw [h2] at hitem
      exact Option.some.inj hitem
    rw [hsame]
    simp [h]
  · intro j hj
    simp [List.getElem?_set, Ne.symm hj]

theorem updateQty_frame_witness :
    1 < [(⟨str "Eggs", str "12"⟩ : PantryItem), ⟨str "Paneer", str "200 g"⟩].length ∧
    ∃ now,
      updateQty [(⟨str "Eggs", str "12"⟩ : PantryItem), ⟨str "Paneer", str "200 g"⟩] 1 "250 g"
        = .ok now ∧
      now.length = [(⟨str "Eggs", str "12"⟩ : PantryItem), ⟨str "Paneer", str "200 g"⟩].length ∧
      (∀ item,
        [(⟨str "Eggs", str "12"⟩ : PantryItem), ⟨str "Paneer", str "200 g"⟩][1]? = some item →
        now[1]? = some { name := item.name, quantity := str "250 g" }) ∧
      (∀ j, j ≠ 1 →
        now[j]? = [(⟨str "Eggs", str "12"⟩ : PantryItem), ⟨str "Paneer", str "200 g"⟩][j]?) :=
  ⟨by decide,
   updateQty_frame [(⟨str "Eggs", str "12"⟩ : PantryItem), ⟨str "Paneer", str "200 g"⟩] 1 "250 g"
     (by decide)⟩

/-! ## Fetched recommendations and the lost update -/

theorem withFetchedSlot_obj (i : Nat) (m : List (String × JSVal)) :
    withFetchedSlot i (obj m) = .ok (obj (setField m "_slot" (fetchedLabel i m))) := by
  unfold withFetchedSlot fetchedLabel
  cases h : (slotAt i).truthy with
  | true =>
    simp only [if_true]
    rw [or_of_truthy _ _ h, or_of_truthy _ _ h]
    rfl
  | false =>
    simp only [Bool.false_eq_true, if_false]
    rw [or_of_falsy _ _ h]
    rfl

theorem mapIdxE_objects (start : Nat) (ms : List (List (String × JSVal))) :
    mapIdxE withFetchedSlot start (ms.map obj) =
      .ok (mapIdxFrom (fun i m => obj (setField m "_slot" (fetchedLabel i m))) start ms) := by
  induction ms generalizing start with
  | nil => rfl
  | cons m ms ih =>
    simp only [List.map_cons, mapIdxE, withFetchedSlot_obj, ih, mapIdxFrom]

theorem length_mapIdxFrom {α β : Type} (g : Nat → α → β) (start : Nat) (xs : List α) :
    (mapIdxFrom g start xs).length = xs.length := by
  induction xs generalizing start with
  | nil => rfl
  | cons x xs ih => simp [mapIdxFrom, ih]

theorem getElem?_mapIdxFrom {α β : Type} (g : Nat → α → β) (start : Nat) (xs : List α)
    (i : Nat) : (mapIdxFrom g start xs)[i]? = (xs[i]?).map (g (start + i)) := by
  induction xs generalizing start i with
  | nil => simp [mapIdxFrom]
  | cons x xs ih =>
    cases i with
    | zero => simp [mapIdxFrom]
    | succ i =>
      have harith : start + 1 + i = start + (i + 1) := by omega
      simp only [mapIdxFrom, List.getElem?_cons_succ]
      rw [ih (start + 1) i, harith]

theorem fetchMeals_labelled (r : JSVal) (st : HomeState) (ms : List (List (String × JSVal)))
    (hne : ms ≠ [])
    (hstate : (prop r "state").strictEqStr "NEED_CLARIFICATION" = false)
    (herr : (prop r "error").truthy = false)
    (hmeals : prop r "meals" = arr (ms.map obj)) :
    fetchMeals (.ok r) st =
      { state :=
          { st with
            meals := some
              (mapIdxFrom (fun i m => obj (setField m "_slot" (fetchedLabel i m))) 0 ms) },
        log := [Event.get "/meals/recommendations" undefined],
        rejected := false } := by
  have hp := propE_of_prop_ne r "meals" (by rw [hmeals]; intro hc; cases hc)
  have hlen : (ms.map obj).length ≠ 0 := by
    simpa using hne
  have hm : mealsOrDummy (arr (ms.map obj)) = ms.map obj := by
    unfold mealsOrDummy
    simp only [hlen, ne_eq, not_false_eq_true, if_true]
  unfold fetchMeals fetchMealsTry
  simp only [hp, hstate, herr, hmeals, hm, mapIdxE_objects, Bool.false_eq_true, if_false]

/-- C19, as the code has it: for an error-free response that is not a
clarification and whose `meals` is a non-empty array of meal objects,
`fetchMeals` sets the list to the server's meals, same order and length,
every property other than `_slot` as the server sent it.  The entries at
index 0, 1, 2 are labelled Breakfast, Lunch, Dinner whatever slot the server
gave; an entry at index 3 or more keeps the server's `_slot` when it is
truthy and is labelled "Meal" otherwise. -/
theorem fetchMeals_slot_labels (r : JSVal) (st : HomeState)
    (ms : List (List (String × JSVal))) (hne : ms ≠ [])
    (hstate : (prop r "state").strictEqStr "NEED_CLARIFICATION" = false)
    (herr : (prop r "error").truthy = false)
    (hmeals : prop r "meals" = arr (ms.map obj)) :
    ∃ now, (fetchMeals (.ok r) st).state.meals = some now ∧
      now.length = ms.length ∧
      ∀ i m, ms[i]? = some m →
        now[i]? = some (obj (setField m "_slot" (fetchedLabel i m))) ∧
        lookup (setField m "_slot" (fetchedLabel i m)) "_slot" = fetchedLabel i m ∧
        (∀ k, k ≠ "_slot" → lookup (setField m "_slot" (fetchedLabel i m)) k = lookup m k) ∧
        (i = 0 → fetchedLabel i m = str "Breakfast") ∧
        (i = 1 → fetchedLabel i m = str "Lunch") ∧
        (i = 2 → fetchedLabel i m = str "Dinner") ∧
        (3 ≤ i → (lookup m "_slot").truthy = true → fetchedLabel i m = lookup m "_slot") ∧
        (3 ≤ i → (lookup m "_slot").truthy = false → fetchedLabel i m = str "Meal") := by
  rw [fetchMeals_labelled r st ms hne hstate herr hmeals]
  refine ⟨_, rfl, length_mapIdxFrom _ _ _, ?_⟩
  intro i m hm
  obtain ⟨h0, h1, h2, h3, h4⟩ := fetchedLabel_cases i m
  refine ⟨?_, lookup_setField_same _ _ _, ?_, h0, h1, h2, h3, h4⟩
  · rw [getElem?_mapIdxFrom, hm]
    simp
  · intro k hk
    exact lookup_setField_other m "_slot" k _ hk

theorem fetchMeals_slot_labels_witness :
    [[("dish_name", str "Dal"), ("_slot", str "Brunch")]] ≠ ([] : List (List (String × JSVal))) ∧
    (prop (obj [("meals", arr [obj [("dish_name", str "Dal"), ("_slot", str "Brunch")]])])
      "state").strictEqStr "NEED_CLARIFICATION" = false ∧
    (prop (obj [("meals", arr [obj [("dish_name", str "Dal"), ("_slot", str "Brunch")]])])
      "error").truthy = false ∧
    prop (obj [("meals", arr [obj [("dish_name", str "Dal"), ("_slot", str "Brunch")]])]) "meals"
      = arr ([[("dish_name", str "Dal"), ("_slot", str "Brunch")]].map obj) ∧
    ∃ now,
      (fetchMeals
        (.ok (obj [("meals", arr [obj [("dish_name", str "Dal"), ("_slot", str "Brunch")]])]))
        HomeState.initial).state.meals = some now ∧
      now.length = 1 ∧
      now[0]? = some (obj [("dish_name", str "Dal"), ("_slot", str "Breakfast")]) := by
  have hne : [[("dish_name", str "Dal"), ("_slot", str "Brunch")]] ≠
      ([] : List (List (String × JSVal))) := by simp
  obtain ⟨now, hnow, hlen, hall⟩ := fetchMeals_slot_labels
    (obj [("meals", arr [obj [("dish_name", str "Dal"), ("_slot", str "Brunch")]])])
    HomeState.initial [[("dish_name", str "Dal"), ("_slot", str "Brunch")]] hne rfl rfl rfl
  exact ⟨hne, rfl, rfl, rfl, now, hnow, hlen,
    (hall 0 [("dish_name", str "Dal"), ("_slot", str "Brunch")] rfl).1⟩

theorem removeLast_some (xs : List JSVal) :
    removeLast (some xs) = some (xs.take (xs.length - 1)) := by
  rcases List.eq_nil_or_concat xs with rfl | ⟨ys, y, rfl⟩
  · rfl
  · rw [List.concat_eq_append]
    simp only [removeLast]
    rw [filterIdxFrom_drops_last ys y 0 (((ys ++ [y]).length : ℤ) - 1) (by simp)]
    simp

/-- C17: the failure exit of `recommendSnack` removes the last entry, whatever
it is.  When a recommendations fetch with `n >= 1` server meals sets the list
between the first updater of `recommendSnack` (the placeholder appended) and
its failure updater, the list ends as the first `n - 1` fetched meals: the
last fetched meal is removed, not the placeholder. -/
theorem snack_failure_drops_fetched_meal (st : HomeState) (old : List JSVal)
    (fetchResp snackResp : JSVal) (ms : List (List (String × JSVal)))
    (hold : st.meals = some old) (hne : ms ≠ [])
    (hstate : (prop fetchResp "state").strictEqStr "NEED_CLARIFICATION" = false)
    (herr : (prop fetchResp "error").truthy = false)
    (hmeals : prop fetchResp "meals" = arr (ms.map obj))
    (hfail : snackResp.truthy = false ∨ (prop snackResp "error").truthy = true ∨
      (firstOrSelf (prop snackResp "meal")).truthy = false ∨
      (firstOrSelf (prop snackResp "meal")).typeofObject = false) :
    appendPlaceholder st.meals = some (old ++ [snackPlaceholder]) ∧
    ∃ fetched,
      (fetchMeals (.ok fetchResp)
        { st with meals := appendPlaceholder st.meals }).state.meals = some fetched ∧
      fetched.length = ms.length ∧
      (∀ i m, ms[i]? = some m →
        fetched[i]? = some (obj (setField m "_slot" (fetchedLabel i m)))) ∧
      snackUpdater snackResp (some fetched) = some (fetched.take (ms.length - 1)) ∧
      (fetched.take (ms.length - 1)).length = ms.length - 1 ∧
      (fetched.take (ms.length - 1)).length < fetched.length := by
  have hpos : 0 < ms.length := List.length_pos.mpr hne
  refine ⟨by rw [hold]; rfl, ?_⟩
  rw [fetchMeals_labelled fetchResp _ ms hne hstate herr hmeals]
  have hlen := length_mapIdxFrom
    (fun i m => obj (setField m "_slot" (fetchedLabel i m))) 0 ms
  refine ⟨_, rfl, hlen, ?_, ?_, ?_, ?_⟩
  · intro i m hm
    rw [getElem?_mapIdxFrom, hm]
    simp
  · rw [snackUpdater_failure snackResp hfail, removeLast_some, hlen]
  · rw [List.length_take, hlen]
    omega
  · rw [List.length_take, hlen]
    omega

theorem snack_failure_drops_fetched_meal_witness :
    HomeState.initial.meals = some dummyWithSlots ∧
    [[("dish_name", str "Dal")], [("dish_name", str "Roti")]] ≠
      ([] : List (List (String × JSVal))) ∧
    ∃ fetched,
      (fetchMeals
        (.ok (obj [("meals", arr [obj [("dish_name", str "Dal")], obj [("dish_name", str "Roti")]])]))
        { HomeState.initial with meals := appendPlaceholder HomeState.initial.meals }).state.meals
        = some fetched ∧
      fetched.length = 2 ∧
      snackUpdater JSVal.null (some fetched) = some (fetched.take 1) ∧
      fetched[0]? = some (obj [("dish_name", str "Dal"), ("_slot", str "Breakfast")]) ∧
      fetched[1]? = some (obj [("dish_name", str "Roti"), ("_slot", str "Lunch")]) := by
  have hne : [[("dish_name", str "Dal")], [("dish_name", str "Roti")]] ≠
      ([] : List (List (String × JSVal))) := by simp
  obtain ⟨_, fetched, hf, hlen, hall, hdrop, _, _⟩ := snack_failure_drops_fetched_meal
    HomeState.initial dummyWithSlots
    (obj [("meals", arr [obj [("dish_name", str "Dal")], obj [("dish_name", str "Roti")]])])
    JSVal.null [[("dish_name", str "Dal")], [("dish_name", str "Roti")]]
    rfl hne rfl rfl rfl (Or.inl rfl)
  exact ⟨rfl, hne, fetched, hf, hlen, hdrop, hall 0 _ rfl, hall 1 _ rfl⟩

/-- C19, as the claim states it, fails.  For the error-free response whose
`meals` is the four-element array `[A, B, C, null]`, reading `m._slot` of the
last element throws and the list becomes the three static meals, not the
server's four.  And a fourth meal that the server sends with the slot `""`
is labelled "Meal", not `""`. -/
theorem fetchMeals_array_not_kept :
    (prop (obj [("meals", arr [obj [("dish_name", str "A")], obj [("dish_name", str "B")],
        obj [("dish_name", str "C")], null])]) "state").strictEqStr "NEED_CLARIFICATION"
      = false ∧
    (prop (obj [("meals", arr [obj [("dish_name", str "A")], obj [("dish_name", str "B")],
        obj [("dish_name", str "C")], null])]) "error").truthy = false ∧
    (fetchMeals
      (.ok (obj [("meals", arr [obj [("dish_name", str "A")], obj [("dish_name", str "B")],
        obj [("dish_name", str "C")], null])]))
      HomeState.initial).state.meals = some dummyWithSlots ∧
    dummyWithSlots.length = 3 ∧
    [obj [("dish_name", str "A")], obj [("dish_name", str "B")], obj [("dish_name", str "C")],
      null].length = 4 ∧
    (fetchMeals
      (.ok (obj [("meals", arr [obj [("dish_name", str "A")], obj [("dish_name", str "B")],
        obj [("dish_name", str "C")], obj [("dish_name", str "D"), ("_slot", str "")]])]))
      HomeState.initial).state.meals =
      some [obj [("dish_name", str "A"), ("_slot", str "Breakfast")],
        obj [("dish_name", str "B"), ("_slot", str "Lunch")],
        obj [("dish_name", str "C"), ("_slot", str "Dinner")],
        obj [("dish_name", str "D"), ("_slot", str "Meal")]] :=
  ⟨rfl, rfl, rfl, rfl, rfl, rfl⟩

end Kedo
